import Mathlib

/-!
Verification development for the haev admin back-office repository.

The definitions below are a shallow embedding of the TypeScript source:
pure string helpers are translated directly; route handlers become pure
functions from a validated payload, an outcome oracle for the external
database/network operations, and (where a claim inspects stored rows) an
explicit table state, to a result record carrying the HTTP status, the
collected error strings, the trace of issued persistence operations, the
final table state and the set of revalidated paths.  JavaScript strings
are modelled as Lean strings over their ASCII range.
-/

namespace Haev

/-- Character test for the regex class `[a-z0-9]` (ASCII). -/
def isLowerAlnum (c : Char) : Bool :=
  (97 ≤ c.toNat && c.toNat ≤ 122) || (48 ≤ c.toNat && c.toNat ≤ 57)

/-- Character test for the regex class `[A-Za-z0-9]` (ASCII). -/
def isAsciiAlnum (c : Char) : Bool :=
  (65 ≤ c.toNat && c.toNat ≤ 90) || (97 ≤ c.toNat && c.toNat ≤ 122) ||
    (48 ≤ c.toNat && c.toNat ≤ 57)

/-- Character test for the regex class `\s`, restricted to its ASCII part
(space, tab, line feed, carriage return, vertical tab, form feed). -/
def isJsSpace (c : Char) : Bool :=
  c.toNat = 32 || c.toNat = 9 || c.toNat = 10 || c.toNat = 13 ||
    c.toNat = 11 || c.toNat = 12

/-- Character test for the regex class `\w` = `[A-Za-z0-9_]`. -/
def isWordChar (c : Char) : Bool :=
  isAsciiAlnum c || c.toNat = 95

/-- `String.prototype.toLowerCase` on the ASCII range: map `A`-`Z` to
`a`-`z`, leave everything else unchanged. -/
def jsToLower (c : Char) : Char :=
  if 65 ≤ c.toNat && c.toNat ≤ 90 then Char.ofNat (c.toNat + 32) else c

/-- Replace every maximal nonempty run of characters satisfying `p` by the
single character `r`; the `Bool` state records whether we are inside a run
whose replacement was already emitted.  This is the semantics of
`.replace(/[class]+/g, r)`. -/
def collapseGo (p : Char → Bool) (r : Char) : Bool → List Char → List Char
  | _, [] => []
  | true, c :: cs =>
    if p c then collapseGo p r true cs else c :: collapseGo p r false cs
  | false, c :: cs =>
    if p c then r :: collapseGo p r true cs else c :: collapseGo p r false cs

/-- `.replace(/[class]+/g, r)` starting outside a run. -/
def collapseRuns (p : Char → Bool) (r : Char) (l : List Char) : List Char :=
  collapseGo p r false l

/-- Drop a single leading occurrence of `r`. -/
def dropOne (r : Char) : List Char → List Char
  | [] => []
  | c :: cs => if c = r then cs else c :: cs

/-- `.replace(/(^-|-$)/g, '')` (for `r` = `'-'`): the global scan removes
one occurrence of `r` at the very start and one at the very end, which is
extensionally the composition of the two single-end drops. -/
def stripOneEnds (r : Char) (l : List Char) : List Char :=
  (dropOne r (dropOne r l).reverse).reverse

/-- `.replace(/^-+|-+$/g, '')` (for `r` = `'-'`): remove every leading and
every trailing occurrence of `r`. -/
def stripAllEnds (r : Char) (l : List Char) : List Char :=
  ((l.dropWhile (· = r)).reverse.dropWhile (· = r)).reverse

/-- `String.prototype.trim` on the ASCII range. -/
def trimChars (l : List Char) : List Char :=
  ((l.dropWhile isJsSpace).reverse.dropWhile isJsSpace).reverse

namespace Part001

/-- The category-form slug helper of `src/unnamed/part_001` lines 168-173:
lowercase, collapse every run of characters outside `[a-z0-9]` to a single
hyphen, then strip one leading and one trailing hyphen. -/
def generateSlug (name : String) : String :=
  String.mk (stripOneEnds '-'
    (collapseRuns (fun c => !isLowerAlnum c) '-' (name.toList.map jsToLower)))

end Part001

namespace ProductsSchema

/-- The product-form slug helper of `src/app/(admin)/products/schema.ts`
lines 847-860: lowercase, trim, delete characters outside `[\w\s-]`,
collapse every run of `[\s_-]` to a single hyphen, then strip all leading
and trailing hyphens. -/
def generateSlug (name : String) : String :=
  String.mk (stripAllEnds '-'
    (collapseRuns (fun c => isJsSpace c || c.toNat = 95 || c = '-') '-'
      ((trimChars (name.toList.map jsToLower)).filter
        (fun c => isWordChar c || isJsSpace c || c = '-'))))

end ProductsSchema

/-- Modelled from the external npm `slugify` library as the routes call it
(`slugify(name, { lower: true, strict: true })`): strict mode deletes every
character outside `[A-Za-z0-9\s]`, the string is trimmed, whitespace runs
become single hyphens, and `lower` lowercases the result. -/
def slugifyStrictLower (s : String) : String :=
  String.mk ((collapseRuns isJsSpace '-'
    (trimChars (s.toList.filter (fun c => isAsciiAlnum c || isJsSpace c)))).map
      jsToLower)

/-- Characters allowed in a canonical slug: `[a-z0-9-]`. -/
def isCanonChar (c : Char) : Bool := isLowerAlnum c || c = '-'

/-- No two adjacent characters of the list both equal `r`. -/
def Isolated (r : Char) (l : List Char) : Prop :=
  List.Chain' (fun a b => ¬(a = r ∧ b = r)) l

/-- Canonical slugs: only `[a-z0-9-]`, hyphens isolated, and no hyphen at
either end.  Both slug helpers produce canonical output and fix every
canonical string, which yields their idempotence. -/
def Canonical (l : List Char) : Prop :=
  (∀ c ∈ l, isCanonChar c = true) ∧ Isolated '-' l ∧
    l.head? ≠ some '-' ∧ l.getLast? ≠ some '-'

/-- Does `needle` occur as a contiguous substring of `hay`?  This is the
semantics of `String.prototype.includes`. -/
def hasSubList (needle : List Char) : List Char → Bool
  | [] => needle.isEmpty
  | c :: cs => needle.isPrefixOf (c :: cs) || hasSubList needle cs

/-- `e.includes(sub)` on strings. -/
def strIncludes (e sub : String) : Bool := hasSubList sub.toList e.toList

/-- `Array.from(new Set(l))`: deduplicate keeping first occurrences. -/
def dedupFirst (l : List String) : List String :=
  (l.foldl (fun acc x => if x ∈ acc then acc else acc ++ [x]) [])

/-- The `status` enumeration `z.enum(['active', 'draft'])`. -/
inductive Status where
  | active
  | draft
deriving DecidableEq

/-- The promotional `mark` enumeration of six fixed labels. -/
inductive Mark where
  | sellingFast
  | trendingNow
  | mustHave
  | lovedByMany
  | bestSeller
  | limitedEdition
deriving DecidableEq

/-- Split a character list at the first occurrence of `://`, returning
the scheme before it and the remainder after it. -/
def urlSplit : List Char → List Char → Option (List Char × List Char)
  | _, [] => none
  | acc, ':' :: '/' :: '/' :: rest => some (acc.reverse, rest)
  | acc, c :: cs => urlSplit (c :: acc) cs

/-- Approximation of `z.string().url()` (acceptance by the WHATWG `URL`
constructor): a nonempty ASCII-alphanumeric scheme, the separator `://`,
and a nonempty remainder. -/
def isValidUrl (s : String) : Bool :=
  match urlSplit [] s.toList with
  | some (scheme, rest) =>
    !scheme.isEmpty && scheme.all isAsciiAlnum && !rest.isEmpty
  | none => false

/-- An optional URL field declared as
`.url().optional().or(z.literal('')).nullable()`: absent, null, the empty
string, or a valid URL.  Absent and null are collapsed into `none` since
every consumer treats them alike (`?? null` / `|| null`). -/
def optUrlOk : Option String → Bool
  | none => true
  | some s => s.isEmpty || isValidUrl s

namespace ProductsSchema

/-- `productFeatureSchema` of `src/app/(admin)/products/schema.ts`. -/
structure ProductFeature where
  id : Option Int
  feature_text : String
  icon_url : Option String
deriving DecidableEq

/-- Value constraints of `productFeatureSchema`. -/
def validFeature (f : ProductFeature) : Bool :=
  f.feature_text.length ≥ 1 && optUrlOk f.icon_url

/-- `variantAttributeSchema`. -/
structure VariantAttribute where
  id : Option Int
  name : String
  value : String
deriving DecidableEq

/-- Value constraints of `variantAttributeSchema`. -/
def validAttribute (a : VariantAttribute) : Bool :=
  a.name.length ≥ 1 && a.value.length ≥ 1

/-- `variantFeatureSchema`. -/
structure VariantFeature where
  id : Option Int
  feature_text : String
  icon_url : Option String
deriving DecidableEq

/-- Value constraints of `variantFeatureSchema`. -/
def validVariantFeature (f : VariantFeature) : Bool :=
  f.feature_text.length ≥ 1 && optUrlOk f.icon_url

/-- `productVariantSchema`: core overrides plus nested attributes and
variant features.  Numeric fields are modelled over `ℚ`. -/
structure ProductVariant where
  id : Option Int
  name : String
  price : Option ℚ
  compare_at_price : Option ℚ
  sku : Option String
  quantity : Option ℚ
  image_url : Option String
  icon_url : Option String
  attributes : List VariantAttribute
  variant_features : List VariantFeature
deriving DecidableEq

/-- Value constraints of `productVariantSchema`. -/
def validVariant (v : ProductVariant) : Bool :=
  v.name.length ≥ 1 &&
    (match v.price with | none => true | some q => q ≥ 0) &&
    (match v.quantity with | none => true | some q => q ≥ 0) &&
    optUrlOk v.image_url && optUrlOk v.icon_url &&
    v.attributes.all validAttribute && v.variant_features.all validVariantFeature

/-- `productTestimonialVideoSchema`. -/
structure TestimonialVideo where
  id : Option Int
  video_url : String
  title : Option String
  description : Option String
  uploader_name : Option String
deriving DecidableEq

/-- Value constraints of `productTestimonialVideoSchema`. -/
def validVideo (v : TestimonialVideo) : Bool :=
  isValidUrl v.video_url && v.video_url.length ≥ 1

/-- `productPageTestimonialSchema`. -/
structure PageTestimonial where
  id : Option Int
  customer_name : String
  testimonial_text : String
  rating : Option ℚ
  customer_image_url : Option String
deriving DecidableEq

/-- Value constraints of `productPageTestimonialSchema`. -/
def validTestimonial (t : PageTestimonial) : Bool :=
  t.customer_name.length ≥ 2 && t.testimonial_text.length ≥ 10 &&
    (match t.rating with | none => true | some r => 0 ≤ r && r ≤ 5) &&
    optUrlOk t.customer_image_url

/-- `faqItemSchema`. -/
structure FaqItem where
  id : Option Int
  question : String
  answer : String
deriving DecidableEq

/-- Value constraints of `faqItemSchema`. -/
def validFaq (f : FaqItem) : Bool :=
  f.question.length ≥ 1 && f.answer.length ≥ 1

end ProductsSchema

/-- `String.prototype.trim`, as applied by the `z.string().trim()`
transform on tags. -/
def jsTrim (s : String) : String := String.mk (trimChars s.toList)

/-- JavaScript `s || null` on an optional string: the empty string is
falsy and collapses to null. -/
def orNull : Option String → Option String
  | none => none
  | some s => if s.isEmpty then none else some s

/-- JavaScript truthiness push `if (x) paths.push(x)` for an optional
string. -/
def pushTruthy : Option String → List String
  | none => []
  | some s => if s.isEmpty then [] else [s]

/-- A row of `product_images` as built by both routes:
`{ product_id, url, is_primary: index === 0, sort_order: index }`. -/
structure ImageRow where
  product_id : Nat
  url : String
  is_primary : Bool
  sort_order : Nat
deriving DecidableEq

/-- A row of `product_features`. -/
structure FeatureRow where
  product_id : Nat
  feature_text : String
deriving DecidableEq

/-- A row of `product_tags`. -/
structure TagRow where
  product_id : Nat
  tag_text : String
deriving DecidableEq

/-- A row of `product_faqs`. -/
structure FaqRow where
  product_id : Nat
  question : String
  answer : String
deriving DecidableEq

/-- A row of `product_testimonial_videos`. -/
structure VideoRow where
  product_id : Nat
  video_url : String
  title : Option String
  description : Option String
  uploader_name : Option String
deriving DecidableEq

/-- A row of `customer_testimonials` (keyed by `products_id`). -/
structure TestimonialRow where
  products_id : Nat
  customer_name : String
  testimonial_text : String
  rating : Option ℚ
  customer_image_url : Option String
deriving DecidableEq

/-- The core columns of a `product_variants` insert. -/
structure VariantRow where
  product_id : Nat
  name : String
  price : Option ℚ
  compare_at_price : Option ℚ
  sku : Option String
  quantity : Option ℚ
  image_url : Option String
  icon_url : Option String
deriving DecidableEq

/-- A row of `variant_attributes`. -/
structure AttrRow where
  variant_id : Nat
  name : String
  value : String
deriving DecidableEq

/-- A row of `variant_features`. -/
structure VFeatRow where
  variant_id : Nat
  feature_text : String
  icon_url : Option String
deriving DecidableEq

/-- One persistence call issued by a route handler, as recorded in the
operation trace. -/
inductive Op where
  | insertProduct (slug : String)
  | insertImages (rows : List ImageRow)
  | insertFeatures (rows : List FeatureRow)
  | insertTags (rows : List TagRow)
  | insertFaqs (rows : List FaqRow)
  | insertVideos (rows : List VideoRow)
  | insertTestimonials (rows : List TestimonialRow)
  | insertVariant (row : VariantRow)
  | insertVariantAttributes (rows : List AttrRow)
  | insertVariantFeatures (rows : List VFeatRow)
  | fetchProduct (id : Nat)
  | fetchVariantIds (id : Nat)
  | fetchRelatedPaths (id : Nat)
  | deleteImages (id : Nat)
  | deleteFeatures (id : Nat)
  | deleteTags (id : Nat)
  | deleteFaqs (id : Nat)
  | deleteVideos (id : Nat)
  | deleteTestimonials (id : Nat)
  | deleteVariantAttributes (ids : List Nat)
  | deleteVariantFeatures (ids : List Nat)
  | deleteVariants (ids : List Nat)
  | updateProduct (slug : Option String)
deriving DecidableEq

/-- A structured database error as surfaced by the persistence client. -/
structure DbErr where
  code : Option String
  message : String
  details : String
deriving DecidableEq

/-- The JSON response of a route handler: HTTP status, the `error` field,
the per-field validation `details`, and the non-fatal `errors` list
(an empty list models the `undefined` field). -/
structure ApiResponse where
  status : Nat
  error : Option String
  details : List String
  errors : List String
deriving DecidableEq

/-- The image rows built from an ordered URL list:
`images.map((url, index) => ({ product_id, url, is_primary: index === 0,
sort_order: index }))`. -/
def imageRows (pid : Nat) (images : List String) : List ImageRow :=
  images.enum.map (fun p => ⟨pid, p.2, p.1 == 0, p.1⟩)

/-- The shape shared by every child-collection insert block in both
routes: when the collection is nonempty, issue one insert and record the
labelled error message on failure; otherwise do nothing. -/
def childStep (present : Bool) (label : String) (out : Option String)
    (op : Op) : List String × List Op :=
  if present then
    ((match out with | some m => [label ++ ": " ++ m] | none => []), [op])
  else ([], [])

/-- Step 2 of both routes: insert images when the list is nonempty,
recording `Images: msg` on failure. -/
def imagesStep (pid : Nat) (images : List String) (out : Option String) :
    List String × List Op :=
  childStep (images.length > 0) "Images" out
    (Op.insertImages (imageRows pid images))

/-- Step 3: insert product features. -/
def featuresStep (pid : Nat) (features : List ProductsSchema.ProductFeature)
    (out : Option String) : List String × List Op :=
  childStep (features.length > 0) "Features" out
    (Op.insertFeatures (features.map (fun f => ⟨pid, f.feature_text⟩)))

/-- Step 4: insert tags. -/
def tagsStep (pid : Nat) (tags : List String) (out : Option String) :
    List String × List Op :=
  childStep (tags.length > 0) "Tags" out
    (Op.insertTags (tags.map (fun t => ⟨pid, t⟩)))

/-- Step 5: insert FAQs. -/
def faqsStep (pid : Nat) (faqs : List ProductsSchema.FaqItem)
    (out : Option String) : List String × List Op :=
  childStep (faqs.length > 0) "FAQs" out
    (Op.insertFaqs (faqs.map (fun f => ⟨pid, f.question, f.answer⟩)))

/-- Step 6: insert testimonial videos (`|| null` collapses empty optional
strings). -/
def videosStep (pid : Nat) (videos : List ProductsSchema.TestimonialVideo)
    (out : Option String) : List String × List Op :=
  childStep (videos.length > 0) "Testimonial Videos" out
    (Op.insertVideos (videos.map (fun v =>
      ⟨pid, v.video_url, orNull v.title, orNull v.description,
        orNull v.uploader_name⟩)))

/-- Step 7: insert customer testimonials. -/
def testimonialsStep (pid : Nat)
    (tests : List ProductsSchema.PageTestimonial) (out : Option String) :
    List String × List Op :=
  childStep (tests.length > 0) "Customer Testimonials" out
    (Op.insertTestimonials (tests.map (fun t =>
      ⟨pid, t.customer_name, t.testimonial_text, t.rating,
        orNull t.customer_image_url⟩)))

/-- The core columns sent for one variant insert. -/
def variantRow (pid : Nat) (v : ProductsSchema.ProductVariant) : VariantRow :=
  ⟨pid, v.name, v.price, v.compare_at_price, v.sku, v.quantity,
    v.image_url, v.icon_url⟩

/-- `attributes.filter((a) => a.name && a.value).map(...)` for a freshly
inserted variant id. -/
def attrRowsFor (vid : Nat) (v : ProductsSchema.ProductVariant) :
    List AttrRow :=
  (v.attributes.filter (fun a => !a.name.isEmpty && !a.value.isEmpty)).map
    (fun a => ⟨vid, a.name, a.value⟩)

/-- `variant_features.filter((f) => f.feature_text).map(...)` for a fresh
variant id. -/
def vfeatRowsFor (vid : Nat) (v : ProductsSchema.ProductVariant) :
    List VFeatRow :=
  (v.variant_features.filter (fun f => !f.feature_text.isEmpty)).map
    (fun f => ⟨vid, f.feature_text, f.icon_url⟩)

/-- Step 8 of both routes: insert each variant in order; a failed variant
insert records an error and `continue`s, skipping only that variant's
nested attribute and feature inserts.  `vIns i` is the database outcome of
the `i`-th variant insert, `aIns i` / `fIns i` of its nested inserts. -/
def variantsLoop (vIns : Nat → Except String Nat)
    (aIns fIns : Nat → Option String) (pid : Nat)
    (variants : List ProductsSchema.ProductVariant) (idx : Nat) :
    List String × List Op :=
  match variants with
  | [] => ([], [])
  | v :: vs =>
    let rest := variantsLoop vIns aIns fIns pid vs (idx + 1)
    match vIns idx with
    | .error msg =>
      (("Variant (" ++ (if v.name.isEmpty then "Unnamed" else v.name) ++ "): " ++
          (if msg.isEmpty then "Failed to insert" else msg)) :: rest.1,
        Op.insertVariant (variantRow pid v) :: rest.2)
    | .ok vid =>
      let aRows := attrRowsFor vid v
      let aStep : List String × List Op :=
        if v.attributes.length > 0 && aRows.length > 0 then
          ((match aIns idx with
            | some m => ["Variant Attributes (" ++ v.name ++ "): " ++ m]
            | none => []), [Op.insertVariantAttributes aRows])
        else ([], [])
      let fRows := vfeatRowsFor vid v
      let fStep : List String × List Op :=
        if v.variant_features.length > 0 && fRows.length > 0 then
          ((match fIns idx with
            | some m => ["Variant Features (" ++ v.name ++ "): " ++ m]
            | none => []), [Op.insertVariantFeatures fRows])
        else ([], [])
      (aStep.1 ++ fStep.1 ++ rest.1,
        Op.insertVariant (variantRow pid v) :: (aStep.2 ++ fStep.2 ++ rest.2))

namespace CreateRoute

/-- The validated shape of `createProductSchema` in `src/unnamed/part_004`.
zod's type and coercion checks are carried by the Lean field types
(ids are integers, prices rationals); the value constraints are checked by
`violations` below.  All optional nested arrays carry their `[]` default. -/
structure CreatePayload where
  name : String
  slug : Option String
  description : Option String
  short_description : Option String
  sku : Option String
  category_id : Option Int
  subcategory_id : Option Int
  brand_id : Option Int
  price : ℚ
  compare_at_price : Option ℚ
  cost_price : Option ℚ
  currency_code : String
  initial_stock : Option Int
  track_inventory : Bool
  quantity : ℚ
  backorderable : Bool
  low_stock_threshold : ℚ
  reserved_quantity : ℚ
  max_stock : Option ℚ
  weight : Option ℚ
  weight_unit : Option String
  dimensions_length : Option ℚ
  dimensions_width : Option ℚ
  dimensions_height : Option ℚ
  dimensions_unit : Option String
  shipping_required : Bool
  shipping_class : Option String
  status : Status
  mark : Option Mark
  seo_title : Option String
  seo_description : Option String
  seo_keywords : Option String
  images : List String
  features : List ProductsSchema.ProductFeature
  variants : List ProductsSchema.ProductVariant
  testimonial_videos : List ProductsSchema.TestimonialVideo
  customer_testimonials : List ProductsSchema.PageTestimonial
  tags : List String
  faqs : List ProductsSchema.FaqItem
  featured_in_collection_slug : Option String
deriving DecidableEq

/-- The field paths rejected by `createProductSchema.safeParse`; the parse
succeeds exactly when this list is empty. -/
def violations (p : CreatePayload) : List String :=
  (if p.name.length ≥ 2 then [] else ["name"]) ++
  (if p.price ≥ 0 then [] else ["price"]) ++
  (match p.cost_price with
   | none => [] | some q => if 0 < q then [] else ["cost_price"]) ++
  (match p.initial_stock with
   | none => [] | some n => if 0 ≤ n then [] else ["initial_stock"]) ++
  (if p.quantity ≥ 0 then [] else ["quantity"]) ++
  (if p.low_stock_threshold ≥ 0 then [] else ["low_stock_threshold"]) ++
  (if p.reserved_quantity ≥ 0 then [] else ["reserved_quantity"]) ++
  (match p.max_stock with
   | none => [] | some q => if 0 ≤ q then [] else ["max_stock"]) ++
  (if p.images.all isValidUrl then [] else ["images"]) ++
  (if p.features.all ProductsSchema.validFeature then [] else ["features"]) ++
  (if p.variants.all ProductsSchema.validVariant then [] else ["variants"]) ++
  (if p.testimonial_videos.all ProductsSchema.validVideo then []
   else ["testimonial_videos"]) ++
  (if p.customer_testimonials.all ProductsSchema.validTestimonial then []
   else ["customer_testimonials"]) ++
  (if p.tags.all (fun t => (jsTrim t).length ≥ 1) then [] else ["tags"]) ++
  (if p.faqs.all ProductsSchema.validFaq then [] else ["faqs"])

/-- The outcome oracle for the create workflow: what each awaited database
call would return.  `coreInsert` is consulted only when the slug does not
collide (see `coreInsertResult`); the per-index functions give the result
of the `i`-th variant insert and of its nested inserts. -/
structure CreateOutcomes where
  coreInsert : Except DbErr Nat
  imagesInsert : Option String
  featuresInsert : Option String
  tagsInsert : Option String
  faqsInsert : Option String
  videosInsert : Option String
  testimonialsInsert : Option String
  variantInsert : Nat → Except String Nat
  attributesInsert : Nat → Option String
  variantFeaturesInsert : Nat → Option String
  categoryPath : Option String
  brandPath : Option String

/-- Modelled from the spec: the external database enforces the global
unique constraint on `products.slug` (§6), surfacing a duplicate insert
with error code `23505`; `db` is the list of already-stored product slugs.
Any other outcome is supplied by the oracle. -/
def coreInsertResult (db : List String) (slug : String)
    (o : CreateOutcomes) : Except DbErr Nat :=
  if slug ∈ db then
    .error ⟨some "23505", "duplicate key value violates unique constraint",
      "Key (slug)=(" ++ slug ++ ") already exists."⟩
  else o.coreInsert

/-- The full result of one run of the create handler. -/
structure CreateResult where
  resp : ApiResponse
  ops : List Op
  paths : List String
deriving DecidableEq

/-- The POST handler of `src/unnamed/part_004` (product create): validate,
derive the slug (no uniqueness probe), insert the core row, then insert
each child collection best-effort, collecting error strings; respond 201
with the created slug and the error list. -/
def POST (p : CreatePayload) (db : List String) (o : CreateOutcomes) :
    CreateResult :=
  if violations p ≠ [] then
    { resp :=
        { status := 400, error := some "Invalid product data",
          details := violations p, errors := [] },
      ops := [], paths := [] }
  else
    let slug := slugifyStrictLower p.name
    match coreInsertResult db slug o with
    | .error e =>
      if e.code == some "23505" then
        { resp :=
            { status := 409,
              error := some ("Product creation failed: " ++
                (if e.details.isEmpty then "Duplicate value exists" else e.details)),
              details := [], errors := [] },
          ops := [Op.insertProduct slug], paths := [] }
      else
        { resp :=
            { status := 500,
              error := some ("Failed to create product: " ++ e.message),
              details := [], errors := [] },
          ops := [Op.insertProduct slug], paths := [] }
    | .ok pid =>
      let s2 := imagesStep pid p.images o.imagesInsert
      let s3 := featuresStep pid p.features o.featuresInsert
      let s4 := tagsStep pid (p.tags.map jsTrim) o.tagsInsert
      let s5 := faqsStep pid p.faqs o.faqsInsert
      let s6 := videosStep pid p.testimonial_videos o.videosInsert
      let s7 := testimonialsStep pid p.customer_testimonials o.testimonialsInsert
      let s8 := variantsLoop o.variantInsert o.attributesInsert
        o.variantFeaturesInsert pid p.variants 0
      let errs := s2.1 ++ s3.1 ++ s4.1 ++ s5.1 ++ s6.1 ++ s7.1 ++ s8.1
      { resp :=
          { status := 201, error := none, details := [], errors := errs },
        ops := Op.insertProduct slug ::
          (s2.2 ++ s3.2 ++ s4.2 ++ s5.2 ++ s6.2 ++ s7.2 ++ s8.2),
        paths := dedupFirst (["/", "/products", "/products/" ++ slug] ++
          pushTruthy o.categoryPath ++ pushTruthy o.brandPath) }

end CreateRoute

namespace UpdateRoute

/-- The validated shape of `updateProductSchema` in
`src/app/api/products/update/route.ts`: every scalar is optional (absent
scalars are not sent to the database); the nested arrays carry their `[]`
default.  Absent and null are collapsed into `none`; no claim observes the
difference.  `quantity` is integer-constrained in the update schema. -/
structure UpdatePayload where
  products_id : Nat
  name : Option String
  slug : Option String
  description : Option String
  short_description : Option String
  price : Option ℚ
  quantity : Option Int
  sku : Option String
  status : Option Status
  mark : Option Mark
  category_id : Option Int
  brand_id : Option Int
  subcategory_id : Option Int
  compare_at_price : Option ℚ
  cost_price : Option ℚ
  currency_code : Option String
  initial_stock : Option Int
  track_inventory : Option Bool
  backorderable : Option Bool
  low_stock_threshold : Option ℚ
  reserved_quantity : Option ℚ
  max_stock : Option ℚ
  weight : Option ℚ
  weight_unit : Option String
  dimensions_length : Option ℚ
  dimensions_width : Option ℚ
  dimensions_height : Option ℚ
  dimensions_unit : Option String
  shipping_required : Option Bool
  shipping_class : Option String
  seo_title : Option String
  seo_description : Option String
  seo_keywords : Option String
  images : List String
  features : List ProductsSchema.ProductFeature
  variants : List ProductsSchema.ProductVariant
  testimonial_videos : List ProductsSchema.TestimonialVideo
  customer_testimonials : List ProductsSchema.PageTestimonial
  tags : List String
  faqs : List ProductsSchema.FaqItem
  featured_in_collection_slug : Option String
deriving DecidableEq

/-- The field paths rejected by `updateProductSchema.safeParse`; the parse
succeeds exactly when this list is empty. -/
def violations (p : UpdatePayload) : List String :=
  (match p.name with
   | none => [] | some n => if n.length ≥ 2 then [] else ["name"]) ++
  (match p.price with
   | none => [] | some q => if 0 ≤ q then [] else ["price"]) ++
  (match p.quantity with
   | none => [] | some n => if 0 ≤ n then [] else ["quantity"]) ++
  (match p.cost_price with
   | none => [] | some q => if 0 < q then [] else ["cost_price"]) ++
  (match p.initial_stock with
   | none => [] | some n => if 0 ≤ n then [] else ["initial_stock"]) ++
  (match p.low_stock_threshold with
   | none => [] | some q => if 0 ≤ q then [] else ["low_stock_threshold"]) ++
  (match p.reserved_quantity with
   | none => [] | some q => if 0 ≤ q then [] else ["reserved_quantity"]) ++
  (match p.max_stock with
   | none => [] | some q => if 0 ≤ q then [] else ["max_stock"]) ++
  (if p.images.all isValidUrl then [] else ["images"]) ++
  (if p.features.all ProductsSchema.validFeature then [] else ["features"]) ++
  (if p.variants.all ProductsSchema.validVariant then [] else ["variants"]) ++
  (if p.testimonial_videos.all ProductsSchema.validVideo then []
   else ["testimonial_videos"]) ++
  (if p.customer_testimonials.all ProductsSchema.validTestimonial then []
   else ["customer_testimonials"]) ++
  (if p.tags.all (fun t => (jsTrim t).length ≥ 1) then [] else ["tags"]) ++
  (if p.faqs.all ProductsSchema.validFaq then [] else ["faqs"])

/-- The columns fetched before mutating anything. -/
structure CurrentRow where
  slug : String
  category_id : Option Nat
  brand_id : Option Nat
deriving DecidableEq

/-- The settlement of one delete promise in the `Promise.allSettled`
batch.  The handler inspects only rejections; a promise that resolved
carrying a database error object is treated as settled success. -/
inductive Settled where
  | fulfilled (err : Option String)
  | rejected (msg : String)
deriving DecidableEq

/-- The stored state the update claims inspect: the slugs of all other
products (for the unique constraint) and the `product_images` table. -/
structure DbState where
  otherSlugs : List String
  images : List ImageRow
deriving DecidableEq

/-- The outcome oracle for the update workflow. -/
structure UpdateOutcomes where
  fetchCurrent : Option CurrentRow
  oldCategoryPath : Option String
  oldBrandPath : Option String
  variantIdsFetch : Except String (List Nat)
  delImages : Settled
  delFeatures : Settled
  delTags : Settled
  delFaqs : Settled
  delVideos : Settled
  delTestimonials : Settled
  delAttributes : Settled
  delVariantFeats : Settled
  delVariants : Option String
  coreUpdate : Option DbErr
  imagesInsert : Option String
  featuresInsert : Option String
  tagsInsert : Option String
  faqsInsert : Option String
  videosInsert : Option String
  testimonialsInsert : Option String
  variantInsert : Nat → Except String Nat
  attributesInsert : Nat → Option String
  variantFeaturesInsert : Nat → Option String
  newCategoryPath : Option String
  newBrandPath : Option String

/-- Modelled from the spec: the external database enforces the unique
constraint on `products.slug` (§6); updating to a slug held by a different
product fails with code `23505`.  Otherwise the oracle decides. -/
def coreUpdateResult (db : DbState) (slugSent : Option String)
    (o : UpdateOutcomes) : Option DbErr :=
  match slugSent with
  | some s =>
    if s ∈ db.otherSlugs then
      some ⟨some "23505", "duplicate key value violates unique constraint",
        "Key (slug)=(" ++ s ++ ") already exists."⟩
    else o.coreUpdate
  | none => o.coreUpdate

/-- The slug regenerated from the payload: the handler recomputes it
whenever a (truthy) `name` is supplied, with no uniqueness probe. -/
def newSlugOf (p : UpdatePayload) : Option String :=
  match p.name with
  | some n => if n.isEmpty then none else some (slugifyStrictLower n)
  | none => none

/-- The slug column included in the core update payload: the regenerated
slug when a name was supplied, otherwise the slug field as sent. -/
def slugSentOf (p : UpdatePayload) : Option String :=
  match newSlugOf p with
  | some s => some s
  | none => p.slug

/-- The conditional delete batch handed to `Promise.allSettled`, paired
with each promise's settlement: six unconditional child-table deletes
plus, when variant ids were fetched and nonempty, the variant attribute
and variant feature deletes. -/
def deleteBatch (pid : Nat) (ids : List Nat) (o : UpdateOutcomes) :
    List (Op × Settled) :=
  [(Op.deleteImages pid, o.delImages),
   (Op.deleteFeatures pid, o.delFeatures),
   (Op.deleteTags pid, o.delTags),
   (Op.deleteFaqs pid, o.delFaqs),
   (Op.deleteVideos pid, o.delVideos),
   (Op.deleteTestimonials pid, o.delTestimonials)] ++
  (if ids.length > 0 then
    [(Op.deleteVariantAttributes ids, o.delAttributes),
     (Op.deleteVariantFeatures ids, o.delVariantFeats)]
   else [])

/-- The error strings collected from the settled delete batch:
`Error deleting related data group ${index}: ${reason?.message ||
'Unknown error'}` for each rejected promise. -/
def settledErrors (batch : List (Op × Settled)) : List String :=
  batch.enum.filterMap (fun q =>
    match q.2.2 with
    | .rejected m =>
      some ("Error deleting related data group " ++ toString q.1 ++ ": " ++
        (if m.isEmpty then "Unknown error" else m))
    | .fulfilled _ => none)

/-- Whether an error string mentions either nested variant table, i.e.
`e.includes('variant_attributes') || e.includes('variant_features')`. -/
def mentionsVariantTables (e : String) : Bool :=
  strIncludes e "variant_attributes" || strIncludes e "variant_features"

/-- The full result of one run of the update handler. -/
structure UpdateResult where
  resp : ApiResponse
  ops : List Op
  db : DbState
  paths : List String
deriving DecidableEq

/-- The POST handler of `src/app/api/products/update/route.ts`: validate;
regenerate the slug when a name is supplied (no uniqueness probe); fetch
the current row and old related paths; fetch variant ids; run the settled
delete batch (the variants themselves deleted only when ids were fetched
nonempty and no collected error string mentions the nested tables); update
the core row (slug conflicts abort with 409); re-insert every child
collection best-effort; recompute paths and respond 200 with the error
list.  The `product_images` table is threaded through to observe the
delete-then-reinsert replacement. -/
def POST (p : UpdatePayload) (db : DbState) (o : UpdateOutcomes) :
    UpdateResult :=
  if violations p ≠ [] then
    { resp :=
        { status := 400, error := some "Invalid product data",
          details := violations p, errors := [] },
      ops := [], db := db, paths := [] }
  else
    let pid := p.products_id
    match o.fetchCurrent with
    | none =>
      { resp :=
          { status := 404, error := some "Could not find product to update",
            details := [], errors := [] },
        ops := [Op.fetchProduct pid], db := db, paths := [] }
    | some cur =>
      let fetchErrs : List String :=
        match o.variantIdsFetch with
        | .error m => ["Failed to fetch variant IDs: " ++ m]
        | .ok _ => []
      let ids : List Nat := match o.variantIdsFetch with
        | .error _ => []
        | .ok l => l
      let batch := deleteBatch pid ids o
      let errsAfterDeletes := fetchErrs ++ settledErrors batch
      let imagesAfterDelete :=
        match o.delImages with
        | .fulfilled none => db.images.filter (fun r => r.product_id ≠ pid)
        | _ => db.images
      let delVarStep : List String × List Op :=
        if ids.length > 0 &&
            !(errsAfterDeletes.any mentionsVariantTables) then
          ((match o.delVariants with
            | some m => ["Error deleting variants: " ++ m]
            | none => []), [Op.deleteVariants ids])
        else ([], [])
      let opsThroughDeletes :=
        [Op.fetchProduct pid, Op.fetchRelatedPaths pid, Op.fetchVariantIds pid] ++
          batch.map (fun q => q.1) ++ delVarStep.2
      let dbAfterDeletes : DbState := ⟨db.otherSlugs, imagesAfterDelete⟩
      let slugSent := slugSentOf p
      match coreUpdateResult db slugSent o with
      | some e =>
        if e.code == some "23505" then
          { resp :=
              { status := 409,
                error := some ("Product update failed: " ++
                  (if e.details.isEmpty then "Duplicate value exists" else e.details)),
                details := [], errors := [] },
            ops := opsThroughDeletes ++ [Op.updateProduct slugSent],
            db := dbAfterDeletes, paths := [] }
        else
          { resp :=
              { status := 500,
                error := some ("Failed to update product: " ++ e.message),
                details := [], errors := [] },
            ops := opsThroughDeletes ++ [Op.updateProduct slugSent],
            db := dbAfterDeletes, paths := [] }
      | none =>
        let s2 := imagesStep pid p.images o.imagesInsert
        let s3 := featuresStep pid p.features o.featuresInsert
        let s4 := tagsStep pid (p.tags.map jsTrim) o.tagsInsert
        let s5 := faqsStep pid p.faqs o.faqsInsert
        let s6 := videosStep pid p.testimonial_videos o.videosInsert
        let s7 := testimonialsStep pid p.customer_testimonials
          o.testimonialsInsert
        let s8 := variantsLoop o.variantInsert o.attributesInsert
          o.variantFeaturesInsert pid p.variants 0
        let errs := errsAfterDeletes ++ delVarStep.1 ++
          s2.1 ++ s3.1 ++ s4.1 ++ s5.1 ++ s6.1 ++ s7.1 ++ s8.1
        let imagesFinal :=
          if p.images.length > 0 && o.imagesInsert == none then
            imagesAfterDelete ++ imageRows pid p.images
          else imagesAfterDelete
        let effSlug := match newSlugOf p with
          | some s => if s.isEmpty then cur.slug else s
          | none => cur.slug
        { resp :=
            { status := 200, error := none, details := [], errors := errs },
          ops := opsThroughDeletes ++ [Op.updateProduct slugSent] ++
            s2.2 ++ s3.2 ++ s4.2 ++ s5.2 ++ s6.2 ++ s7.2 ++ s8.2 ++
            [Op.fetchRelatedPaths pid],
          db := ⟨db.otherSlugs, imagesFinal⟩,
          paths := dedupFirst (["/", "/products", "/products/" ++ effSlug] ++
            pushTruthy o.oldCategoryPath ++ pushTruthy o.oldBrandPath ++
            pushTruthy o.newCategoryPath ++ pushTruthy o.newBrandPath) }

end UpdateRoute

namespace CategoriesDelete

/-- A stored row of `categories`. -/
structure CategoryRow where
  categories_id : Nat
  slug : String
  parent_category_id : Option Nat
deriving DecidableEq

/-- A stored product, reduced to the foreign key the delete route can
violate. -/
structure ProductRef where
  products_id : Nat
  category_id : Option Nat
deriving DecidableEq

/-- The stored state the category-delete claims inspect. -/
structure CatDb where
  categories : List CategoryRow
  products : List ProductRef
deriving DecidableEq

/-- Does any stored product reference the category? -/
def referencedByProduct (db : CatDb) (id : Nat) : Bool :=
  db.products.any (fun pr => pr.category_id == some id)

/-- Modelled from the spec: the external database enforces the foreign key
from `products.category_id` to `categories` (§6), so deleting a referenced
category fails with code `23503` and changes nothing; an unreferenced
category row is removed. -/
def deleteCategoryRow (db : CatDb) (id : Nat) : Except DbErr CatDb :=
  if referencedByProduct db id then
    .error ⟨some "23503", "update or delete on table categories violates foreign key constraint",
      "Key is still referenced from table products."⟩
  else
    .ok ⟨db.categories.filter (fun c => c.categories_id ≠ id), db.products⟩

/-- `getCategorySlugById`: null for a falsy id (including 0), else the
slug of the matching row if any. -/
def getCategorySlugById (db : CatDb) : Option Nat → Option String
  | none => none
  | some cid =>
    if cid = 0 then none
    else (db.categories.find? (fun c => c.categories_id == cid)).map (·.slug)

/-- The result of one run of the category-delete handler. -/
structure DeleteResult where
  status : Nat
  error : Option String
  db : CatDb
  paths : List String
deriving DecidableEq

/-- The POST handler of `src/app/api/categories/delete/route.ts`: fetch
the category (404 when absent); delete it, mapping a foreign-key
violation to HTTP 409 with the category untouched; on success revalidate
the home, listing, deleted and parent paths. -/
def POST (db : CatDb) (id : Nat) : DeleteResult :=
  match db.categories.find? (fun c => c.categories_id == id) with
  | none =>
    { status := 404,
      error := some "Category not found or error fetching data before deletion.",
      db := db, paths := [] }
  | some cat =>
    match deleteCategoryRow db id with
    | .error e =>
      if e.code == some "23503" then
        { status := 409,
          error := some ("Cannot delete category: It is referenced by other records (e.g., products, subcategories). Details: " ++ e.details),
          db := db, paths := [] }
      else
        { status := 500,
          error := some ("Failed to delete category: " ++ e.message),
          db := db, paths := [] }
    | .ok db2 =>
      let parentPath : List String :=
        match cat.parent_category_id with
        | none => []
        | some parentId =>
          if parentId = 0 then []
          else
            match getCategorySlugById db (some parentId) with
            | some s => if s.isEmpty then [] else ["/category/" ++ s]
            | none => []
      { status := 200, error := none, db := db2,
        paths := dedupFirst (["/", "/categories"] ++
          (if cat.slug.isEmpty then [] else ["/category/" ++ cat.slug]) ++
          parentPath) }

end CategoriesDelete

namespace Revalidate

/-- The body sent to the storefronts' `/api/revalidate` endpoint. -/
structure RevalidationPayload where
  path : Option String
  paths : Option (List String)
deriving DecidableEq

/-- The outcome of one outbound `fetch` to a storefront. -/
inductive FetchOutcome where
  | ok
  | httpError (status : Nat) (body : String)
  | networkError (msg : String)
deriving DecidableEq

/-- The record produced by one target's async closure: every failure is
caught inside the closure and returned as a `rejected`-status record, so
the `Promise.allSettled` join only ever sees fulfilled promises. -/
structure TargetResult where
  url : String
  rejected : Bool
  errMsg : Option String
deriving DecidableEq

/-- `s.split(',')` on character lists: split at every comma, keeping
empty segments. -/
def splitCommaGo : List Char → List Char → List (List Char)
  | acc, [] => [acc.reverse]
  | acc, c :: cs =>
    if c = ',' then acc.reverse :: splitCommaGo [] cs
    else splitCommaGo (c :: acc) cs

/-- Split the comma-separated `CUSTOMER_APP_BASE_URLS` value, trim each
entry and drop empties. -/
def parseBaseUrls (s : String) : List String :=
  ((splitCommaGo [] s.toList).map (fun l => String.mk (trimChars l))).filter
    (fun u => !u.isEmpty)

/-- One target's attempt: a non-OK response throws inside the closure and
is caught there; a network error is caught there too. -/
def processTarget (baseUrl : String) (outcome : FetchOutcome) : TargetResult :=
  match outcome with
  | .ok => ⟨baseUrl, false, none⟩
  | .httpError st body =>
    ⟨baseUrl, true, some ("Revalidation failed for " ++ baseUrl ++
      " with status " ++ toString st ++ ": " ++ body)⟩
  | .networkError m => ⟨baseUrl, true, some m⟩

/-- How one call of the notifier ends: a normal return carrying the
issued request URLs and the settled per-target records, or a raised
exception (which the source can never produce — every failure is caught). -/
inductive NotifierOutcome where
  | returned (requested : List String) (settled : List TargetResult)
  | raised (e : String)
deriving DecidableEq

/-- `revalidateCustomerApp` of `src/unnamed/part_000`: missing or empty
configuration logs and returns; otherwise one request per parsed base URL
is issued, each settled individually, and no per-target failure escapes. -/
def revalidateCustomerApp (baseUrlsEnv revalidationSecret : Option String)
    (_payload : RevalidationPayload) (outcomes : Nat → FetchOutcome) :
    NotifierOutcome :=
  match baseUrlsEnv with
  | none => .returned [] []
  | some urlsStr =>
    if urlsStr.isEmpty then .returned [] []
    else
      match revalidationSecret with
      | none => .returned [] []
      | some secret =>
        if secret.isEmpty then .returned [] []
        else
          let urls := parseBaseUrls urlsStr
          if urls.isEmpty then .returned [] []
          else
            .returned (urls.map (fun u => u ++ "/api/revalidate"))
              (urls.enum.map (fun q => processTarget q.2 (outcomes q.1)))

end Revalidate

/-! Concrete inputs used to instantiate the theorems below. -/

/-- The character `U+0027` (apostrophe). -/
def apostrophe : Char := Char.ofNat 39

/-- The sample name of the slug claim. -/
def menSTShirt : String := "Men" ++ String.mk [apostrophe] ++ "s T-Shirt!"

/-- A minimal valid create payload named `Red Hat`. -/
def redHatPayload : CreateRoute.CreatePayload where
  name := "Red Hat"
  slug := none
  description := none
  short_description := none
  sku := none
  category_id := none
  subcategory_id := none
  brand_id := none
  price := 10
  compare_at_price := none
  cost_price := none
  currency_code := "USD"
  initial_stock := none
  track_inventory := true
  quantity := 0
  backorderable := false
  low_stock_threshold := 5
  reserved_quantity := 0
  max_stock := none
  weight := none
  weight_unit := none
  dimensions_length := none
  dimensions_width := none
  dimensions_height := none
  dimensions_unit := none
  shipping_required := true
  shipping_class := none
  status := Status.draft
  mark := none
  seo_title := none
  seo_description := none
  seo_keywords := none
  images := []
  features := []
  variants := []
  testimonial_videos := []
  customer_testimonials := []
  tags := []
  faqs := []
  featured_in_collection_slug := none

/-- A create payload exercising every child collection, with two
variants. -/
def fullCreatePayload : CreateRoute.CreatePayload :=
  { redHatPayload with
      name := "Winter Coat"
      images := ["https://img.example/a.png", "https://img.example/b.png"]
      features := [⟨none, "Warm", none⟩]
      variants :=
        [⟨none, "Large", some 20, none, none, some 3, none, none,
          [⟨none, "Size", "L"⟩], [⟨none, "Cozy", none⟩]⟩,
         ⟨none, "Small", none, none, none, none, none, none,
          [⟨none, "Size", "S"⟩], []⟩]
      testimonial_videos := [⟨none, "https://vid.example/v.mp4", none, none, none⟩]
      customer_testimonials :=
        [⟨none, "Ada", "Really keeps me warm.", some 5, none⟩]
      tags := ["winter"]
      faqs := [⟨none, "Is it warm?", "Yes."⟩] }

/-- A create oracle where the image insert and the first variant insert
fail and everything else succeeds. -/
def mixedCreateOutcomes : CreateRoute.CreateOutcomes where
  coreInsert := .ok 42
  imagesInsert := some "images boom"
  featuresInsert := none
  tagsInsert := none
  faqsInsert := none
  videosInsert := none
  testimonialsInsert := none
  variantInsert := fun i => if i = 0 then .error "variant boom" else .ok (100 + i)
  attributesInsert := fun _ => none
  variantFeaturesInsert := fun _ => none
  categoryPath := some "/category/outerwear"
  brandPath := none

/-- A fully succeeding create oracle. -/
def cleanCreateOutcomes : CreateRoute.CreateOutcomes :=
  { mixedCreateOutcomes with
      imagesInsert := none
      variantInsert := fun i => .ok (100 + i) }

/-- A minimal update payload renaming product 1 to `Blue Hat` while also
supplying an explicit slug. -/
def blueHatUpdate : UpdateRoute.UpdatePayload where
  products_id := 1
  name := some "Blue Hat"
  slug := some "red-hat"
  description := none
  short_description := none
  price := none
  quantity := none
  sku := none
  status := none
  mark := none
  category_id := none
  brand_id := none
  subcategory_id := none
  compare_at_price := none
  cost_price := none
  currency_code := none
  initial_stock := none
  track_inventory := none
  backorderable := none
  low_stock_threshold := none
  reserved_quantity := none
  max_stock := none
  weight := none
  weight_unit := none
  dimensions_length := none
  dimensions_width := none
  dimensions_height := none
  dimensions_unit := none
  shipping_required := none
  shipping_class := none
  seo_title := none
  seo_description := none
  seo_keywords := none
  images := []
  features := []
  variants := []
  testimonial_videos := []
  customer_testimonials := []
  tags := []
  faqs := []
  featured_in_collection_slug := none

/-- An update oracle where every operation succeeds and nothing is
stored or returned beyond the current row `red-hat`. -/
def benignUpdateOutcomes : UpdateRoute.UpdateOutcomes where
  fetchCurrent := some ⟨"red-hat", none, none⟩
  oldCategoryPath := none
  oldBrandPath := none
  variantIdsFetch := .ok []
  delImages := .fulfilled none
  delFeatures := .fulfilled none
  delTags := .fulfilled none
  delFaqs := .fulfilled none
  delVideos := .fulfilled none
  delTestimonials := .fulfilled none
  delAttributes := .fulfilled none
  delVariantFeats := .fulfilled none
  delVariants := none
  coreUpdate := none
  imagesInsert := none
  featuresInsert := none
  tagsInsert := none
  faqsInsert := none
  videosInsert := none
  testimonialsInsert := none
  variantInsert := fun i => .ok (100 + i)
  attributesInsert := fun _ => none
  variantFeaturesInsert := fun _ => none
  newCategoryPath := none
  newBrandPath := none

/-- A database whose only other product already owns the slug
`blue-hat`. -/
def blueHatTakenDb : UpdateRoute.DbState := ⟨["blue-hat"], []⟩

/-- An invalid update payload: negative price. -/
def negativePriceUpdate : UpdateRoute.UpdatePayload :=
  { blueHatUpdate with name := none, slug := none, price := some (-5) }

/-- The stored images of product 7 (three rows) next to a row of another
product. -/
def imagesDbBefore : UpdateRoute.DbState :=
  ⟨[], [⟨7, "https://img.example/a.png", true, 0⟩,
        ⟨7, "https://img.example/b.png", false, 1⟩,
        ⟨7, "https://img.example/c.png", false, 2⟩,
        ⟨9, "https://img.example/z.png", true, 0⟩]⟩

/-- An update replacing product 7's images by `[x, y]`. -/
def imagesUpdatePayload : UpdateRoute.UpdatePayload :=
  { blueHatUpdate with
      products_id := 7
      name := none
      slug := none
      images := ["https://img.example/x.png", "https://img.example/y.png"] }

/-- The benign oracle with current slug `winter-coat`. -/
def imagesUpdateOutcomes : UpdateRoute.UpdateOutcomes :=
  { benignUpdateOutcomes with fetchCurrent := some ⟨"winter-coat", none, none⟩ }

/-- An update oracle with an old category path and an otherwise benign
run, used for the revalidation-path claims. -/
def pathsUpdateOutcomes : UpdateRoute.UpdateOutcomes :=
  { benignUpdateOutcomes with oldCategoryPath := some "/category/hats" }

/-- A renaming update of product 3 with no slug collision. -/
def renameUpdatePayload : UpdateRoute.UpdatePayload :=
  { blueHatUpdate with products_id := 3, slug := none }

/-- An update oracle where product 2 has one stored variant (id 7) and
the nested attribute delete rejects with a message that does not name the
`variant_attributes` table. -/
def timeoutUpdateOutcomes : UpdateRoute.UpdateOutcomes :=
  { benignUpdateOutcomes with
      fetchCurrent := some ⟨"old-thing", none, none⟩
      variantIdsFetch := .ok [7]
      delAttributes := .rejected "timeout" }

/-- A plain update of product 2 sending no scalar changes. -/
def plainUpdatePayload : UpdateRoute.UpdatePayload :=
  { blueHatUpdate with products_id := 2, name := none, slug := none }

/-- A category database where category 1 (`outerwear`) is referenced by
product 10. -/
def referencedCatDb : CategoriesDelete.CatDb :=
  ⟨[⟨1, "outerwear", none⟩], [⟨10, some 1⟩]⟩

/-- A two-target storefront configuration string with a blank entry. -/
def twoTargetUrls : String := "https://a.example, ,https://b.example"

/-- Per-target outcomes where the first target is down. -/
def firstTargetDown : Nat → Revalidate.FetchOutcome :=
  fun i => if i = 0 then .networkError "down" else .ok

/-! Theorems. -/

theorem childStep_ops_of_present (present : Bool) (label : String)
    (out : Option String) (op : Op) (h : present = true) :
    (childStep present label out op).2 = [op] := by
  simp [childStep, h]

theorem childStep_err_of_present (present : Bool) (label m : String)
    (op : Op) (h : present = true) :
    (childStep present label (some m) op).1 = [label ++ ": " ++ m] := by
  simp [childStep, h]

theorem childStep_ops_shape (present : Bool) (label : String)
    (out : Option String) (op : Op) :
    ∀ x ∈ (childStep present label out op).2, x = op := by
  intro x hx
  unfold childStep at hx
  split at hx <;> simp_all

/-- Claim C4: a product-update request whose payload fails schema
validation is answered with HTTP 400 carrying the per-field violation
details, and no persistence call is issued, so the stored product and all
child rows are unchanged. -/
theorem C4_invalid_update_no_writes (p : UpdateRoute.UpdatePayload)
    (db : UpdateRoute.DbState) (o : UpdateRoute.UpdateOutcomes)
    (h : UpdateRoute.violations p ≠ []) :
    (UpdateRoute.POST p db o).resp.status = 400 ∧
    (UpdateRoute.POST p db o).resp.details = UpdateRoute.violations p ∧
    (UpdateRoute.POST p db o).ops = [] ∧
    (UpdateRoute.POST p db o).db = db ∧
    (UpdateRoute.POST p db o).paths = [] := by
  simp [UpdateRoute.POST, h]

/-- Witness for Claim C4: a negative price is rejected with 400 and the
stored state survives untouched. -/
theorem C4_witness :
    UpdateRoute.violations negativePriceUpdate ≠ [] ∧
    ((UpdateRoute.POST negativePriceUpdate blueHatTakenDb
        benignUpdateOutcomes).resp.status = 400 ∧
      (UpdateRoute.POST negativePriceUpdate blueHatTakenDb
        benignUpdateOutcomes).resp.details =
          UpdateRoute.violations negativePriceUpdate ∧
      (UpdateRoute.POST negativePriceUpdate blueHatTakenDb
        benignUpdateOutcomes).ops = [] ∧
      (UpdateRoute.POST negativePriceUpdate blueHatTakenDb
        benignUpdateOutcomes).db = blueHatTakenDb ∧
      (UpdateRoute.POST negativePriceUpdate blueHatTakenDb
        benignUpdateOutcomes).paths = []) :=
  ⟨by decide, C4_invalid_update_no_writes negativePriceUpdate blueHatTakenDb
    benignUpdateOutcomes (by decide)⟩

/-- Claim C7: deleting a category that at least one stored product still
references responds HTTP 409 and leaves the stored categories (indeed the
whole stored state) unchanged. -/
theorem C7_referenced_category_delete_conflict (db : CategoriesDelete.CatDb)
    (id : Nat)
    (hfound : (db.categories.find? (fun c => c.categories_id == id)).isSome)
    (href : CategoriesDelete.referencedByProduct db id = true) :
    (CategoriesDelete.POST db id).status = 409 ∧
    (CategoriesDelete.POST db id).db = db := by
  obtain ⟨cat, hc⟩ := Option.isSome_iff_exists.mp hfound
  simp [CategoriesDelete.POST, hc, CategoriesDelete.deleteCategoryRow, href]

/-- Witness for Claim C7: category 1 is referenced by product 10, so the
delete responds 409 and the row survives. -/
theorem C7_witness :
    (CategoriesDelete.POST referencedCatDb 1).status = 409 ∧
    (CategoriesDelete.POST referencedCatDb 1).db = referencedCatDb :=
  C7_referenced_category_delete_conflict referencedCatDb 1 (by decide)
    (by decide)

/-- Claim C2 (amended): the create path never probes for a free slug;
when the slug derived from the name is already stored, the single core
insert attempt surfaces the unique violation and the route rejects the
creation with HTTP 409. -/
theorem C2_create_slug_conflict_rejected (p : CreateRoute.CreatePayload)
    (db : List String) (o : CreateRoute.CreateOutcomes)
    (hv : CreateRoute.violations p = [])
    (hdup : slugifyStrictLower p.name ∈ db) :
    (CreateRoute.POST p db o).resp.status = 409 ∧
    (CreateRoute.POST p db o).ops =
      [Op.insertProduct (slugifyStrictLower p.name)] := by
  simp [CreateRoute.POST, hv, CreateRoute.coreInsertResult, hdup]

/-- Counterexample for Claim C2: with `red-hat` already stored, creating
`Red Hat` is rejected with 409 after one insert attempt — no suffixed
slug such as `red-hat-1` is derived. -/
theorem C2_counterexample :
    slugifyStrictLower redHatPayload.name = "red-hat" ∧
    "red-hat" ∈ ["red-hat"] ∧
    (CreateRoute.POST redHatPayload ["red-hat"] cleanCreateOutcomes).resp.status = 409 ∧
    (CreateRoute.POST redHatPayload ["red-hat"] cleanCreateOutcomes).ops =
      [Op.insertProduct "red-hat"] := by decide

/-- Witness for Claim C2 (amended) at the `Red Hat` collision input. -/
theorem C2_witness :
    (CreateRoute.POST redHatPayload ["red-hat"] cleanCreateOutcomes).resp.status = 409 ∧
    (CreateRoute.POST redHatPayload ["red-hat"] cleanCreateOutcomes).ops =
      [Op.insertProduct (slugifyStrictLower redHatPayload.name)] :=
  C2_create_slug_conflict_rejected redHatPayload ["red-hat"]
    cleanCreateOutcomes (by decide) (by decide)

theorem getLast?_cons3_append {α : Type} (a : α) (l1 l2 : List α)
    (x : α) : (a :: (l1 ++ (l2 ++ [x]))).getLast? = some x := by
  have h : a :: (l1 ++ (l2 ++ [x])) = (a :: (l1 ++ l2)) ++ [x] := by simp
  rw [h, List.getLast?_concat]

/-- Claim C3 (amended): the update regenerates the slug whenever a name is
supplied — regardless of whether it changed, overwriting any supplied slug
— and keeps the supplied slug only when no name is sent; there is no
suffix-probe loop: when the slug sent collides with a different product's
slug, the core update is attempted with that very slug and the route
responds HTTP 409. -/
theorem C3_update_slug_behaviour (p : UpdateRoute.UpdatePayload)
    (db : UpdateRoute.DbState) (o : UpdateRoute.UpdateOutcomes)
    (hv : UpdateRoute.violations p = [])
    (cur : UpdateRoute.CurrentRow) (hf : o.fetchCurrent = some cur) :
    (∀ n, p.name = some n → n.isEmpty = false →
      Op.updateProduct (some (slugifyStrictLower n)) ∈
        (UpdateRoute.POST p db o).ops) ∧
    (p.name = none → Op.updateProduct p.slug ∈ (UpdateRoute.POST p db o).ops) ∧
    (∀ s, UpdateRoute.slugSentOf p = some s → s ∈ db.otherSlugs →
      (UpdateRoute.POST p db o).resp.status = 409 ∧
      (UpdateRoute.POST p db o).ops.getLast? =
        some (Op.updateProduct (some s))) := by
  have hsent : ∀ n, p.name = some n → n.isEmpty = false →
      UpdateRoute.slugSentOf p = some (slugifyStrictLower n) := by
    intro n hn hne
    simp [UpdateRoute.slugSentOf, UpdateRoute.newSlugOf, hn, hne]
  have hsentNone : p.name = none → UpdateRoute.slugSentOf p = p.slug := by
    intro hn
    simp [UpdateRoute.slugSentOf, UpdateRoute.newSlugOf, hn]
  have hmem : Op.updateProduct (UpdateRoute.slugSentOf p) ∈
      (UpdateRoute.POST p db o).ops := by
    simp only [UpdateRoute.POST, hv, hf]
    simp only [ne_eq, not_true_eq_false, if_false]
    rcases hcu : UpdateRoute.coreUpdateResult db (UpdateRoute.slugSentOf p) o with _ | e
    · simp [hcu]
    · rcases hcode : e.code == some "23505" <;> simp [hcu, hcode]
  refine ⟨?_, ?_, ?_⟩
  · intro n hn hne
    have := hsent n hn hne
    rw [this] at hmem
    exact hmem
  · intro hn
    rw [hsentNone hn] at hmem
    exact hmem
  · intro s hs hdup
    have hcu : UpdateRoute.coreUpdateResult db (some s) o =
        some ⟨some "23505", "duplicate key value violates unique constraint",
          "Key (slug)=(" ++ s ++ ") already exists."⟩ := by
      simp [UpdateRoute.coreUpdateResult, hdup]
    constructor
    · simp [UpdateRoute.POST, hv, hf, hs, hcu]
    · simp [UpdateRoute.POST, hv, hf, hs, hcu, getLast?_cons3_append]

/-- Counterexample for Claim C3: renaming product 1 to `Blue Hat` while
`blue-hat` belongs to a different product is answered 409, the core update
having been attempted with `blue-hat` itself — no suffixed variant is
derived, and the supplied slug field was overwritten by the regenerated
one. -/
theorem C3_counterexample :
    blueHatUpdate.slug = some "red-hat" ∧
    UpdateRoute.slugSentOf blueHatUpdate = some "blue-hat" ∧
    "blue-hat" ∈ blueHatTakenDb.otherSlugs ∧
    (UpdateRoute.POST blueHatUpdate blueHatTakenDb
      benignUpdateOutcomes).resp.status = 409 ∧
    (UpdateRoute.POST blueHatUpdate blueHatTakenDb
      benignUpdateOutcomes).ops.getLast? =
        some (Op.updateProduct (some "blue-hat")) := by decide

/-- Witness for Claim C3 (amended) at the `Blue Hat` collision input. -/
theorem C3_witness :
    (UpdateRoute.POST blueHatUpdate blueHatTakenDb
      benignUpdateOutcomes).resp.status = 409 ∧
    (UpdateRoute.POST blueHatUpdate blueHatTakenDb
      benignUpdateOutcomes).ops.getLast? =
        some (Op.updateProduct (some "blue-hat")) :=
  (C3_update_slug_behaviour blueHatUpdate blueHatTakenDb benignUpdateOutcomes
    (by decide) ⟨"red-hat", none, none⟩ rfl).2.2 "blue-hat" (by decide)
    (by decide)

theorem dedupFirst_go_mem (x : String) :
    ∀ (l acc : List String),
      (x ∈ l.foldl (fun acc y => if y ∈ acc then acc else acc ++ [y]) acc) ↔
        x ∈ acc ∨ x ∈ l := by
  intro l
  induction l with
  | nil => simp
  | cons y t ih =>
    intro acc
    rw [List.foldl_cons, ih]
    by_cases hy : y ∈ acc
    · rw [if_pos hy, List.mem_cons]
      constructor
      · rintro (h | h)
        · exact Or.inl h
        · exact Or.inr (Or.inr h)
      · rintro (h | rfl | h)
        · exact Or.inl h
        · exact Or.inl hy
        · exact Or.inr h
    · rw [if_neg hy, List.mem_cons, List.mem_append, List.mem_singleton]
      tauto

theorem dedupFirst_mem (x : String) (l : List String) :
    x ∈ dedupFirst l ↔ x ∈ l := by
  unfold dedupFirst
  rw [dedupFirst_go_mem]
  simp

theorem dedupFirst_go_nodup :
    ∀ (l acc : List String), acc.Nodup →
      (l.foldl (fun acc y => if y ∈ acc then acc else acc ++ [y]) acc).Nodup := by
  intro l
  induction l with
  | nil => intro acc h; simpa using h
  | cons y t ih =>
    intro acc h
    rw [List.foldl_cons]
    by_cases hy : y ∈ acc
    · rw [if_pos hy]; exact ih acc h
    · rw [if_neg hy]
      refine ih _ ?_
      simp [List.nodup_append, h, hy]

theorem dedupFirst_nodup (l : List String) : (dedupFirst l).Nodup :=
  dedupFirst_go_nodup l [] List.nodup_nil

theorem pushTruthy_mem_of (x : Option String) (s : String) (hx : x = some s)
    (hne : s.isEmpty = false) : s ∈ pushTruthy x := by
  simp [pushTruthy, hx, hne]

theorem mem_pushTruthy (q : String) (x : Option String)
    (h : q ∈ pushTruthy x) : x = some q := by
  cases x with
  | none => simp [pushTruthy] at h
  | some s =>
    by_cases hs : s.isEmpty <;> simp [pushTruthy, hs] at h
    rw [h]

/-- Claim C6 (amended): after a successful product update, the paths
handed to the revalidation notifier are exactly the homepage, the listing
page, the product path of the slug now in effect (the regenerated slug
when a name was sent, the previously stored slug otherwise) and the old
and new category and brand paths, deduplicated — the old slug's product
path is NOT revalidated when the slug changed (that push is commented out
in the source). -/
theorem C6_update_revalidation_paths (p : UpdateRoute.UpdatePayload)
    (db : UpdateRoute.DbState) (o : UpdateRoute.UpdateOutcomes)
    (hv : UpdateRoute.violations p = [])
    (cur : UpdateRoute.CurrentRow) (hf : o.fetchCurrent = some cur)
    (hcu : UpdateRoute.coreUpdateResult db (UpdateRoute.slugSentOf p) o = none) :
    let r := UpdateRoute.POST p db o
    let es := match UpdateRoute.newSlugOf p with
      | some s => if s.isEmpty then cur.slug else s
      | none => cur.slug
    "/" ∈ r.paths ∧ "/products" ∈ r.paths ∧ ("/products/" ++ es) ∈ r.paths ∧
    (∀ s, o.oldCategoryPath = some s → s.isEmpty = false → s ∈ r.paths) ∧
    (∀ s, o.oldBrandPath = some s → s.isEmpty = false → s ∈ r.paths) ∧
    (∀ s, o.newCategoryPath = some s → s.isEmpty = false → s ∈ r.paths) ∧
    (∀ s, o.newBrandPath = some s → s.isEmpty = false → s ∈ r.paths) ∧
    r.paths.Nodup ∧
    (∀ q ∈ r.paths, q = "/" ∨ q = "/products" ∨ q = "/products/" ++ es ∨
      some q = o.oldCategoryPath ∨ some q = o.oldBrandPath ∨
      some q = o.newCategoryPath ∨ some q = o.newBrandPath) := by
  intro r es
  have hpaths : r.paths = dedupFirst (["/", "/products", "/products/" ++ es] ++
      pushTruthy o.oldCategoryPath ++ pushTruthy o.oldBrandPath ++
      pushTruthy o.newCategoryPath ++ pushTruthy o.newBrandPath) := by
    simp only [r, UpdateRoute.POST, hv, hf, hcu]
    simp [es]
  refine ⟨?_, ?_, ?_, ?_, ?_, ?_, ?_, ?_, ?_⟩
  · rw [hpaths, dedupFirst_mem]; simp
  · rw [hpaths, dedupFirst_mem]; simp
  · rw [hpaths, dedupFirst_mem]; simp
  · intro s hx hne
    rw [hpaths, dedupFirst_mem]
    simp only [List.mem_append]
    exact Or.inl (Or.inl (Or.inl (Or.inr (pushTruthy_mem_of _ _ hx hne))))
  · intro s hx hne
    rw [hpaths, dedupFirst_mem]
    simp only [List.mem_append]
    exact Or.inl (Or.inl (Or.inr (pushTruthy_mem_of _ _ hx hne)))
  · intro s hx hne
    rw [hpaths, dedupFirst_mem]
    simp only [List.mem_append]
    exact Or.inl (Or.inr (pushTruthy_mem_of _ _ hx hne))
  · intro s hx hne
    rw [hpaths, dedupFirst_mem]
    simp only [List.mem_append]
    exact Or.inr (pushTruthy_mem_of _ _ hx hne)
  · rw [hpaths]; exact dedupFirst_nodup _
  · intro q hq
    rw [hpaths, dedupFirst_mem] at hq
    simp only [List.mem_append, List.mem_cons, List.mem_singleton] at hq
    rcases hq with ((((h | h) | h) | h) | h)
    · rcases h with h | h | h
      · exact Or.inl h
      · exact Or.inr (Or.inl h)
      · simp at h
        exact Or.inr (Or.inr (Or.inl h))
    · exact Or.inr (Or.inr (Or.inr (Or.inl (mem_pushTruthy _ _ h).symm)))
    · exact Or.inr (Or.inr (Or.inr (Or.inr (Or.inl (mem_pushTruthy _ _ h).symm))))
    · exact Or.inr (Or.inr (Or.inr (Or.inr (Or.inr (Or.inl (mem_pushTruthy _ _ h).symm)))))
    · exact Or.inr (Or.inr (Or.inr (Or.inr (Or.inr (Or.inr (mem_pushTruthy _ _ h).symm)))))

/-- Counterexample for Claim C6: renaming `red-hat` to `Blue Hat`
revalidates the new product path but not the old one — the old slug's
path is missing from the revalidated set, contradicting the claimed
union. -/
theorem C6_counterexample :
    pathsUpdateOutcomes.fetchCurrent = some ⟨"red-hat", none, none⟩ ∧
    UpdateRoute.newSlugOf renameUpdatePayload = some "blue-hat" ∧
    (UpdateRoute.POST renameUpdatePayload ⟨[], []⟩ pathsUpdateOutcomes).paths =
      ["/", "/products", "/products/blue-hat", "/category/hats"] ∧
    "/products/red-hat" ∉
      (UpdateRoute.POST renameUpdatePayload ⟨[], []⟩ pathsUpdateOutcomes).paths := by
  decide

/-- Witness for Claim C6 (amended) at the renaming input with an old
category path configured. -/
theorem C6_witness :
    "/" ∈ (UpdateRoute.POST renameUpdatePayload ⟨[], []⟩ pathsUpdateOutcomes).paths ∧
    "/category/hats" ∈
      (UpdateRoute.POST renameUpdatePayload ⟨[], []⟩ pathsUpdateOutcomes).paths :=
  have h := C6_update_revalidation_paths renameUpdatePayload ⟨[], []⟩
    pathsUpdateOutcomes (by decide) ⟨"red-hat", none, none⟩ rfl (by decide)
  ⟨h.1, h.2.2.2.1 "/category/hats" rfl (by decide)⟩

theorem mem_if_pair_snd {c : Prop} [Decidable c] {errs : List String}
    {op x : Op} (hx : x ∈ (if c then (errs, [op]) else ([], [])).2) :
    x = op := by
  split at hx <;> simp_all

theorem snd_ite_pair {α β : Type} {c : Prop} [Decidable c] (a b : α)
    (l : List β) : (if c then (a, l) else (b, [])).2 = if c then l else [] := by
  split <;> rfl

theorem mem_ite_nil_iff {α : Type} {c : Prop} [Decidable c] {x : α}
    {l : List α} : (x ∈ if c then l else []) ↔ c ∧ x ∈ l := by
  split <;> simp_all

theorem childStep_snd (present : Bool) (label : String) (out : Option String)
    (op : Op) : (childStep present label out op).2 =
      if present = true then [op] else [] := by
  unfold childStep
  split <;> rfl

theorem deleteBatch_fst_ne_deleteVariants (pid : Nat) (ids : List Nat)
    (o : UpdateRoute.UpdateOutcomes) (l : List Nat) :
    Op.deleteVariants l ∉
      (UpdateRoute.deleteBatch pid ids o).map (fun q => q.1) := by
  intro h
  by_cases hid : ids.length > 0 <;>
    simp [UpdateRoute.deleteBatch, hid] at h

theorem variantsLoop_ops_kinds (vIns : Nat → Except String Nat)
    (aIns fIns : Nat → Option String) (pid : Nat) :
    ∀ (variants : List ProductsSchema.ProductVariant) (idx : Nat) (x : Op),
      x ∈ (variantsLoop vIns aIns fIns pid variants idx).2 →
      (∃ row, x = Op.insertVariant row) ∨
      (∃ rows, x = Op.insertVariantAttributes rows) ∨
      (∃ rows, x = Op.insertVariantFeatures rows) := by
  intro variants
  induction variants with
  | nil => intro idx x hx; simp [variantsLoop] at hx
  | cons v vs ih =>
    intro idx x hx
    rcases hv : vIns idx with m | vid
    · simp only [variantsLoop, hv, List.mem_cons] at hx
      rcases hx with rfl | hx
      · exact Or.inl ⟨_, rfl⟩
      · exact ih _ x hx
    · simp only [variantsLoop, hv, List.mem_cons, List.mem_append] at hx
      rcases hx with rfl | (hx | hx) | hx
      · exact Or.inl ⟨_, rfl⟩
      · exact Or.inr (Or.inl ⟨_, mem_if_pair_snd hx⟩)
      · exact Or.inr (Or.inr ⟨_, mem_if_pair_snd hx⟩)
      · exact ih _ x hx

/-- Claim C10 (amended): the update deletes the `product_variants` rows
only when the variant-id fetch succeeded with a nonempty list and no
error string collected so far contains the substrings
`variant_attributes` or `variant_features`; a recorded nested-delete
failure suppresses the variant delete only when its message happens to
name one of those tables. -/
theorem C10_variant_delete_guard (p : UpdateRoute.UpdatePayload)
    (db : UpdateRoute.DbState) (o : UpdateRoute.UpdateOutcomes)
    (hv : UpdateRoute.violations p = [])
    (cur : UpdateRoute.CurrentRow) (hf : o.fetchCurrent = some cur) :
    ∀ ids, Op.deleteVariants ids ∈ (UpdateRoute.POST p db o).ops →
      o.variantIdsFetch = .ok ids ∧ ids ≠ [] ∧
      (∀ e ∈ UpdateRoute.settledErrors
          (UpdateRoute.deleteBatch p.products_id ids o),
        UpdateRoute.mentionsVariantTables e = false) := by
  intro ids hmem
  simp only [UpdateRoute.POST, hv, hf] at hmem
  rcases hvf : o.variantIdsFetch with m | l <;>
  rcases hcu : UpdateRoute.coreUpdateResult db (UpdateRoute.slugSentOf p) o with _ | e <;>
  simp [hvf, hcu, imagesStep, featuresStep, tagsStep, faqsStep, videosStep,
    testimonialsStep, childStep_snd, snd_ite_pair, List.mem_cons, List.mem_append,
    mem_ite_nil_iff] at hmem
  · exfalso
    rcases hmem with ⟨x, hx⟩ | h
    · exact deleteBatch_fst_ne_deleteVariants p.products_id [] o ids
        (List.mem_map_of_mem (fun q => q.1) hx)
    · rcases variantsLoop_ops_kinds _ _ _ _ _ _ _ h with ⟨r, hr⟩ | ⟨r, hr⟩ | ⟨r, hr⟩ <;>
        simp at hr
  · exfalso
    split at hmem <;>
      simp [List.mem_cons, List.mem_append] at hmem <;>
      rcases hmem with ⟨x, hx⟩ <;>
      exact deleteBatch_fst_ne_deleteVariants p.products_id [] o ids
        (List.mem_map_of_mem (fun q => q.1) hx)
  · rcases hmem with ⟨x, hx⟩ | ⟨⟨hlen, hall⟩, rfl⟩ | h
    · exact absurd (List.mem_map_of_mem (fun q => q.1) hx)
        (deleteBatch_fst_ne_deleteVariants p.products_id l o ids)
    · refine ⟨rfl, ?_, hall⟩
      intro hnil
      rw [hnil] at hlen
      simp at hlen
    · exfalso
      rcases variantsLoop_ops_kinds _ _ _ _ _ _ _ h with ⟨r, hr⟩ | ⟨r, hr⟩ | ⟨r, hr⟩ <;>
        simp at hr
  · split at hmem <;>
      simp [List.mem_cons, List.mem_append, snd_ite_pair, mem_ite_nil_iff] at hmem <;>
      rcases hmem with ⟨x, hx⟩ | ⟨⟨hlen, hall⟩, rfl⟩
    · exact absurd (List.mem_map_of_mem (fun q => q.1) hx)
        (deleteBatch_fst_ne_deleteVariants p.products_id l o ids)
    · refine ⟨rfl, ?_, hall⟩
      intro hnil
      rw [hnil] at hlen
      simp at hlen
    · exact absurd (List.mem_map_of_mem (fun q => q.1) hx)
        (deleteBatch_fst_ne_deleteVariants p.products_id l o ids)
    · refine ⟨rfl, ?_, hall⟩
      intro hnil
      rw [hnil] at hlen
      simp at hlen

/-- Counterexample for Claim C10: the nested attribute delete rejects
with `timeout`, the failure is recorded in the error list, yet the
variants are still deleted — the guard only reacts to error strings that
literally contain the nested table names. -/
theorem C10_counterexample :
    timeoutUpdateOutcomes.delAttributes = UpdateRoute.Settled.rejected "timeout" ∧
    "Error deleting related data group 6: timeout" ∈
      (UpdateRoute.POST plainUpdatePayload ⟨[], []⟩ timeoutUpdateOutcomes).resp.errors ∧
    Op.deleteVariants [7] ∈
      (UpdateRoute.POST plainUpdatePayload ⟨[], []⟩ timeoutUpdateOutcomes).ops := by
  decide

/-- Witness for Claim C10 (amended): in the `timeout` run the delete is
issued, so the guard conditions are reported to hold. -/
theorem C10_witness :
    timeoutUpdateOutcomes.variantIdsFetch = .ok [7] ∧ ([7] : List Nat) ≠ [] ∧
    (∀ e ∈ UpdateRoute.settledErrors
        (UpdateRoute.deleteBatch plainUpdatePayload.products_id [7]
          timeoutUpdateOutcomes),
      UpdateRoute.mentionsVariantTables e = false) :=
  C10_variant_delete_guard plainUpdatePayload ⟨[], []⟩ timeoutUpdateOutcomes
    (by decide) ⟨"old-thing", none, none⟩ rfl [7] (by decide)

/-- Claim C8: the revalidation notifier never raises whatever the
configuration and per-target outcomes; an absent or effectively empty
configuration issues no request and returns normally; with configuration
present, one request per parsed target is issued and every target yields
a settled record regardless of its outcome, none of which is propagated. -/
theorem C8_notifier_never_fails (u s : Option String)
    (payload : Revalidate.RevalidationPayload)
    (outcomes : Nat → Revalidate.FetchOutcome) :
    (∃ req settled, Revalidate.revalidateCustomerApp u s payload outcomes =
      .returned req settled) ∧
    ((u = none ∨ u = some "" ∨ s = none ∨ s = some "" ∨
        (∀ us, u = some us → Revalidate.parseBaseUrls us = [])) →
      Revalidate.revalidateCustomerApp u s payload outcomes = .returned [] []) ∧
    (∀ us sec, u = some us → s = some sec → us.isEmpty = false →
      sec.isEmpty = false → Revalidate.parseBaseUrls us ≠ [] →
      ∃ settled, Revalidate.revalidateCustomerApp u s payload outcomes =
          .returned ((Revalidate.parseBaseUrls us).map (· ++ "/api/revalidate"))
            settled ∧
        settled.length = (Revalidate.parseBaseUrls us).length ∧
        ∀ t ∈ settled, t.rejected = true → t.errMsg.isSome = true) := by
  have hemp : "".isEmpty = true := rfl
  refine ⟨?_, ?_, ?_⟩
  · rcases u with _ | us
    · exact ⟨[], [], rfl⟩
    · by_cases hu : us.isEmpty
      · exact ⟨[], [], by simp [Revalidate.revalidateCustomerApp, hu]⟩
      · rcases s with _ | sec
        · exact ⟨[], [], by simp [Revalidate.revalidateCustomerApp, hu]⟩
        · by_cases hs : sec.isEmpty
          · exact ⟨[], [], by simp [Revalidate.revalidateCustomerApp, hu, hs]⟩
          · by_cases hp : Revalidate.parseBaseUrls us = []
            · exact ⟨[], [], by simp [Revalidate.revalidateCustomerApp, hu, hs, hp]⟩
            · exact ⟨(Revalidate.parseBaseUrls us).map (· ++ "/api/revalidate"),
                (Revalidate.parseBaseUrls us).enum.map
                  (fun q => Revalidate.processTarget q.2 (outcomes q.1)),
                by simp [Revalidate.revalidateCustomerApp, hu, hs, hp]⟩
  · rintro (rfl | rfl | rfl | rfl | h)
    · rfl
    · simp [Revalidate.revalidateCustomerApp, hemp]
    · rcases u with _ | us
      · rfl
      · by_cases hu : us.isEmpty <;>
          simp [Revalidate.revalidateCustomerApp, hu]
    · rcases u with _ | us
      · rfl
      · by_cases hu : us.isEmpty <;>
          simp [Revalidate.revalidateCustomerApp, hu, hemp]
    · rcases u with _ | us
      · rfl
      · have hp := h us rfl
        by_cases hu : us.isEmpty
        · simp [Revalidate.revalidateCustomerApp, hu]
        · rcases s with _ | sec
          · simp [Revalidate.revalidateCustomerApp, hu]
          · by_cases hs : sec.isEmpty <;>
              simp [Revalidate.revalidateCustomerApp, hu, hs, hp]
  · rintro us sec rfl rfl hu hs hp
    refine ⟨(Revalidate.parseBaseUrls us).enum.map
      (fun q => Revalidate.processTarget q.2 (outcomes q.1)), ?_, ?_, ?_⟩
    · simp [Revalidate.revalidateCustomerApp, hu, hs, hp]
    · simp
    · intro t ht hrej
      simp only [List.mem_map] at ht
      obtain ⟨q, hq, rfl⟩ := ht
      rcases ho : outcomes q.1 with _ | ⟨st, body⟩ | m
      · rw [ho] at hrej
        simp [Revalidate.processTarget] at hrej
      · rfl
      · rfl

/-- Witness for Claim C8 at a two-target configuration whose first target
is down. -/
theorem C8_witness :
    ∃ settled, Revalidate.revalidateCustomerApp (some twoTargetUrls)
        (some "secret") ⟨none, some ["/"]⟩ firstTargetDown =
      .returned ((Revalidate.parseBaseUrls twoTargetUrls).map
        (· ++ "/api/revalidate")) settled ∧
      settled.length = (Revalidate.parseBaseUrls twoTargetUrls).length ∧
      ∀ t ∈ settled, t.rejected = true → t.errMsg.isSome = true :=
  (C8_notifier_never_fails (some twoTargetUrls) (some "secret")
    ⟨none, some ["/"]⟩ firstTargetDown).2.2 twoTargetUrls "secret" rfl rfl
    (by decide) (by decide) (by decide)

theorem variantsLoop_insertVariant_mem (vIns : Nat → Except String Nat)
    (aIns fIns : Nat → Option String) (pid : Nat) :
    ∀ (variants : List ProductsSchema.ProductVariant) (idx j : Nat)
      (hj : j < variants.length),
      Op.insertVariant (variantRow pid (variants.get ⟨j, hj⟩)) ∈
        (variantsLoop vIns aIns fIns pid variants idx).2 := by
  intro variants
  induction variants with
  | nil => intro idx j hj; simp at hj
  | cons v vs ih =>
    intro idx j hj
    cases j with
    | zero =>
      rcases hv : vIns idx with m | vid <;>
        simp [variantsLoop, hv]
    | succ j =>
      have hmem := ih (idx + 1) j (by simpa using hj)
      rcases hv : vIns idx with m | vid <;>
        simp [variantsLoop, hv, List.mem_cons, List.mem_append] <;>
        tauto

theorem variantsLoop_err_mem (vIns : Nat → Except String Nat)
    (aIns fIns : Nat → Option String) (pid : Nat) :
    ∀ (variants : List ProductsSchema.ProductVariant) (idx j : Nat)
      (hj : j < variants.length) (m : String), vIns (idx + j) = .error m →
      ("Variant (" ++ (if (variants.get ⟨j, hj⟩).name.isEmpty then "Unnamed"
          else (variants.get ⟨j, hj⟩).name) ++ "): " ++
        (if m.isEmpty then "Failed to insert" else m)) ∈
        (variantsLoop vIns aIns fIns pid variants idx).1 := by
  intro variants
  induction variants with
  | nil => intro idx j hj; simp at hj
  | cons v vs ih =>
    intro idx j hj m hm
    cases j with
    | zero =>
      rw [Nat.add_zero] at hm
      simp [variantsLoop, hm]
    | succ j =>
      have hmem := ih (idx + 1) j (by simpa using hj) m
        (by rw [← hm]; ring_nf)
      rcases hv : vIns idx with m' | vid <;>
        simp [variantsLoop, hv, List.mem_cons, List.mem_append] <;>
        tauto

theorem variantsLoop_attrs_mem (vIns : Nat → Except String Nat)
    (aIns fIns : Nat → Option String) (pid : Nat) :
    ∀ (variants : List ProductsSchema.ProductVariant) (idx j : Nat)
      (hj : j < variants.length) (vid : Nat), vIns (idx + j) = .ok vid →
      (variants.get ⟨j, hj⟩).attributes ≠ [] →
      attrRowsFor vid (variants.get ⟨j, hj⟩) ≠ [] →
      Op.insertVariantAttributes (attrRowsFor vid (variants.get ⟨j, hj⟩)) ∈
        (variantsLoop vIns aIns fIns pid variants idx).2 := by
  intro variants
  induction variants with
  | nil => intro idx j hj; simp at hj
  | cons v vs ih =>
    intro idx j hj vid hv ha hr
    cases j with
    | zero =>
      rw [Nat.add_zero] at hv
      have ha' : 0 < v.attributes.length := List.length_pos.mpr ha
      have hr' : 0 < (attrRowsFor vid v).length := List.length_pos.mpr hr
      simp [variantsLoop, hv, ha', hr', List.mem_cons, List.mem_append]
    | succ j =>
      have hmem := ih (idx + 1) j (by simpa using hj) vid
        (by rw [← hv]; ring_nf) ha hr
      rcases hv' : vIns idx with m' | vid' <;>
        simp [variantsLoop, hv', List.mem_cons, List.mem_append] <;>
        tauto

theorem variantsLoop_feats_mem (vIns : Nat → Except String Nat)
    (aIns fIns : Nat → Option String) (pid : Nat) :
    ∀ (variants : List ProductsSchema.ProductVariant) (idx j : Nat)
      (hj : j < variants.length) (vid : Nat), vIns (idx + j) = .ok vid →
      (variants.get ⟨j, hj⟩).variant_features ≠ [] →
      vfeatRowsFor vid (variants.get ⟨j, hj⟩) ≠ [] →
      Op.insertVariantFeatures (vfeatRowsFor vid (variants.get ⟨j, hj⟩)) ∈
        (variantsLoop vIns aIns fIns pid variants idx).2 := by
  intro variants
  induction variants with
  | nil => intro idx j hj; simp at hj
  | cons v vs ih =>
    intro idx j hj vid hv ha hr
    cases j with
    | zero =>
      rw [Nat.add_zero] at hv
      have ha' : 0 < v.variant_features.length := List.length_pos.mpr ha
      have hr' : 0 < (vfeatRowsFor vid v).length := List.length_pos.mpr hr
      simp [variantsLoop, hv, ha', hr', List.mem_cons, List.mem_append]
    | succ j =>
      have hmem := ih (idx + 1) j (by simpa using hj) vid
        (by rw [← hv]; ring_nf) ha hr
      rcases hv' : vIns idx with m' | vid' <;>
        simp [variantsLoop, hv', List.mem_cons, List.mem_append] <;>
        tauto

theorem variantsLoop_attrs_complete (vIns : Nat → Except String Nat)
    (aIns fIns : Nat → Option String) (pid : Nat) :
    ∀ (variants : List ProductsSchema.ProductVariant) (idx : Nat)
      (rows : List AttrRow),
      Op.insertVariantAttributes rows ∈
        (variantsLoop vIns aIns fIns pid variants idx).2 →
      ∃ j, ∃ hj : j < variants.length, ∃ vid, vIns (idx + j) = .ok vid ∧
        rows = attrRowsFor vid (variants.get ⟨j, hj⟩) := by
  intro variants
  induction variants with
  | nil => intro idx rows h; simp [variantsLoop] at h
  | cons v vs ih =>
    intro idx rows h
    rcases hv : vIns idx with m | vid
    · simp only [variantsLoop, hv, List.mem_cons] at h
      rcases h with h | h
      · exact absurd h (by simp)
      · obtain ⟨j, hj, vid, hjv, hr⟩ := ih (idx + 1) rows h
        exact ⟨j + 1, by simpa using hj, vid, by rw [← hjv]; ring_nf, hr⟩
    · simp only [variantsLoop, hv, List.mem_cons, List.mem_append] at h
      rcases h with h | (h | h) | h
      · exact absurd h (by simp)
      · have := mem_if_pair_snd h
        simp only [Op.insertVariantAttributes.injEq] at this
        exact ⟨0, by simp, vid, by simpa using hv, this⟩
      · have := mem_if_pair_snd h
        exact absurd this (by simp)
      · obtain ⟨j, hj, vid', hjv, hr⟩ := ih (idx + 1) rows h
        exact ⟨j + 1, by simpa using hj, vid', by rw [← hjv]; ring_nf, hr⟩

theorem variantsLoop_feats_complete (vIns : Nat → Except String Nat)
    (aIns fIns : Nat → Option String) (pid : Nat) :
    ∀ (variants : List ProductsSchema.ProductVariant) (idx : Nat)
      (rows : List VFeatRow),
      Op.insertVariantFeatures rows ∈
        (variantsLoop vIns aIns fIns pid variants idx).2 →
      ∃ j, ∃ hj : j < variants.length, ∃ vid, vIns (idx + j) = .ok vid ∧
        rows = vfeatRowsFor vid (variants.get ⟨j, hj⟩) := by
  intro variants
  induction variants with
  | nil => intro idx rows h; simp [variantsLoop] at h
  | cons v vs ih =>
    intro idx rows h
    rcases hv : vIns idx with m | vid
    · simp only [variantsLoop, hv, List.mem_cons] at h
      rcases h with h | h
      · exact absurd h (by simp)
      · obtain ⟨j, hj, vid, hjv, hr⟩ := ih (idx + 1) rows h
        exact ⟨j + 1, by simpa using hj, vid, by rw [← hjv]; ring_nf, hr⟩
    · simp only [variantsLoop, hv, List.mem_cons, List.mem_append] at h
      rcases h with h | (h | h) | h
      · exact absurd h (by simp)
      · have := mem_if_pair_snd h
        exact absurd this (by simp)
      · have := mem_if_pair_snd h
        simp only [Op.insertVariantFeatures.injEq] at this
        exact ⟨0, by simp, vid, by simpa using hv, this⟩
      · obtain ⟨j, hj, vid', hjv, hr⟩ := ih (idx + 1) rows h
        exact ⟨j + 1, by simpa using hj, vid', by rw [← hjv]; ring_nf, hr⟩

/-- Claim C1: for a create whose payload validates and whose core insert
succeeds, every nonempty child collection is attempted independently of
any other collection's failure; each failure is appended to the error
list; a failed variant insert records its error and skips only that
variant's nested inserts (every nested insert that is issued comes from a
successfully inserted variant), while the rest of the batch proceeds; the
route still responds 201 whose body carries the error list. -/
theorem C1_create_best_effort (p : CreateRoute.CreatePayload)
    (db : List String) (o : CreateRoute.CreateOutcomes) (pid : Nat)
    (hv : CreateRoute.violations p = [])
    (hc : CreateRoute.coreInsertResult db (slugifyStrictLower p.name) o = .ok pid) :
    let r := CreateRoute.POST p db o
    r.resp.status = 201 ∧
    (p.images ≠ [] → Op.insertImages (imageRows pid p.images) ∈ r.ops) ∧
    (p.features ≠ [] → Op.insertFeatures
      (p.features.map (fun f => ⟨pid, f.feature_text⟩)) ∈ r.ops) ∧
    (p.tags ≠ [] → Op.insertTags
      ((p.tags.map jsTrim).map (fun t => ⟨pid, t⟩)) ∈ r.ops) ∧
    (p.faqs ≠ [] → Op.insertFaqs
      (p.faqs.map (fun f => ⟨pid, f.question, f.answer⟩)) ∈ r.ops) ∧
    (p.testimonial_videos ≠ [] → Op.insertVideos
      (p.testimonial_videos.map (fun v => ⟨pid, v.video_url, orNull v.title,
        orNull v.description, orNull v.uploader_name⟩)) ∈ r.ops) ∧
    (p.customer_testimonials ≠ [] → Op.insertTestimonials
      (p.customer_testimonials.map (fun t => ⟨pid, t.customer_name,
        t.testimonial_text, t.rating, orNull t.customer_image_url⟩)) ∈ r.ops) ∧
    (∀ m, o.imagesInsert = some m → p.images ≠ [] →
      ("Images: " ++ m) ∈ r.resp.errors) ∧
    (∀ m, o.featuresInsert = some m → p.features ≠ [] →
      ("Features: " ++ m) ∈ r.resp.errors) ∧
    (∀ m, o.tagsInsert = some m → p.tags ≠ [] →
      ("Tags: " ++ m) ∈ r.resp.errors) ∧
    (∀ m, o.faqsInsert = some m → p.faqs ≠ [] →
      ("FAQs: " ++ m) ∈ r.resp.errors) ∧
    (∀ m, o.videosInsert = some m → p.testimonial_videos ≠ [] →
      ("Testimonial Videos: " ++ m) ∈ r.resp.errors) ∧
    (∀ m, o.testimonialsInsert = some m → p.customer_testimonials ≠ [] →
      ("Customer Testimonials: " ++ m) ∈ r.resp.errors) ∧
    (∀ j (hj : j < p.variants.length),
      Op.insertVariant (variantRow pid (p.variants.get ⟨j, hj⟩)) ∈ r.ops) ∧
    (∀ j (hj : j < p.variants.length) (m : String),
      o.variantInsert j = .error m →
      ("Variant (" ++ (if (p.variants.get ⟨j, hj⟩).name.isEmpty then "Unnamed"
          else (p.variants.get ⟨j, hj⟩).name) ++ "): " ++
        (if m.isEmpty then "Failed to insert" else m)) ∈ r.resp.errors) ∧
    (∀ j (hj : j < p.variants.length) (vid : Nat),
      o.variantInsert j = .ok vid →
      (p.variants.get ⟨j, hj⟩).attributes ≠ [] →
      attrRowsFor vid (p.variants.get ⟨j, hj⟩) ≠ [] →
      Op.insertVariantAttributes (attrRowsFor vid (p.variants.get ⟨j, hj⟩)) ∈ r.ops) ∧
    (∀ j (hj : j < p.variants.length) (vid : Nat),
      o.variantInsert j = .ok vid →
      (p.variants.get ⟨j, hj⟩).variant_features ≠ [] →
      vfeatRowsFor vid (p.variants.get ⟨j, hj⟩) ≠ [] →
      Op.insertVariantFeatures (vfeatRowsFor vid (p.variants.get ⟨j, hj⟩)) ∈ r.ops) ∧
    (∀ rows, Op.insertVariantAttributes rows ∈ r.ops →
      ∃ j, ∃ _ : j < p.variants.length, ∃ vid,
        o.variantInsert j = .ok vid ∧
        rows = attrRowsFor vid (p.variants.get ⟨j, by assumption⟩)) ∧
    (∀ rows, Op.insertVariantFeatures rows ∈ r.ops →
      ∃ j, ∃ _ : j < p.variants.length, ∃ vid,
        o.variantInsert j = .ok vid ∧
        rows = vfeatRowsFor vid (p.variants.get ⟨j, by assumption⟩)) := by
  intro r
  have hops : ∀ x : Op, x ∈ (variantsLoop o.variantInsert o.attributesInsert
      o.variantFeaturesInsert pid p.variants 0).2 → x ∈ r.ops := by
    intro x hx
    simp only [r, CreateRoute.POST, hv, hc]
    simp only [ne_eq, not_true_eq_false, if_false]
    exact List.mem_cons_of_mem _ (List.mem_append_right _ hx)
  have herrs : ∀ e : String,
      e ∈ (variantsLoop o.variantInsert o.attributesInsert
        o.variantFeaturesInsert pid p.variants 0).1 → e ∈ r.resp.errors := by
    intro e he
    simp only [r, CreateRoute.POST, hv, hc]
    simp only [ne_eq, not_true_eq_false, if_false]
    exact List.mem_append_right _ he
  refine ⟨?_, ?_, ?_, ?_, ?_, ?_, ?_, ?_, ?_, ?_, ?_, ?_, ?_, ?_, ?_, ?_, ?_, ?_, ?_⟩
  · simp [r, CreateRoute.POST, hv, hc]
  · intro h
    simp [r, CreateRoute.POST, hv, hc, imagesStep, childStep,
      List.length_pos.mpr h, List.mem_cons, List.mem_append]
  · intro h
    simp [r, CreateRoute.POST, hv, hc, featuresStep, childStep,
      List.length_pos.mpr h, List.mem_cons, List.mem_append]
  · intro h
    simp [r, CreateRoute.POST, hv, hc, tagsStep, childStep,
      List.length_pos.mpr h, List.mem_cons, List.mem_append]
  · intro h
    simp [r, CreateRoute.POST, hv, hc, faqsStep, childStep,
      List.length_pos.mpr h, List.mem_cons, List.mem_append]
  · intro h
    simp [r, CreateRoute.POST, hv, hc, videosStep, childStep,
      List.length_pos.mpr h, List.mem_cons, List.mem_append]
  · intro h
    simp [r, CreateRoute.POST, hv, hc, testimonialsStep, childStep,
      List.length_pos.mpr h, List.mem_cons, List.mem_append]
  · intro m hm h
    simp [r, CreateRoute.POST, hv, hc, imagesStep, childStep, hm,
      List.length_pos.mpr h, List.mem_append]
  · intro m hm h
    simp [r, CreateRoute.POST, hv, hc, featuresStep, childStep, hm,
      List.length_pos.mpr h, List.mem_append]
  · intro m hm h
    simp [r, CreateRoute.POST, hv, hc, tagsStep, childStep, hm,
      List.length_pos.mpr h, List.mem_append]
  · intro m hm h
    simp [r, CreateRoute.POST, hv, hc, faqsStep, childStep, hm,
      List.length_pos.mpr h, List.mem_append]
  · intro m hm h
    simp [r, CreateRoute.POST, hv, hc, videosStep, childStep, hm,
      List.length_pos.mpr h, List.mem_append]
  · intro m hm h
    simp [r, CreateRoute.POST, hv, hc, testimonialsStep, childStep, hm,
      List.length_pos.mpr h, List.mem_append]
  · intro j hj
    exact hops _ (variantsLoop_insertVariant_mem o.variantInsert
      o.attributesInsert o.variantFeaturesInsert pid p.variants 0 j hj)
  · intro j hj m hm
    exact herrs _ (variantsLoop_err_mem o.variantInsert o.attributesInsert
      o.variantFeaturesInsert pid p.variants 0 j hj m (by simpa using hm))
  · intro j hj vid hm ha hr'
    exact hops _ (variantsLoop_attrs_mem o.variantInsert o.attributesInsert
      o.variantFeaturesInsert pid p.variants 0 j hj vid (by simpa using hm)
      ha hr')
  · intro j hj vid hm ha hr'
    exact hops _ (variantsLoop_feats_mem o.variantInsert o.attributesInsert
      o.variantFeaturesInsert pid p.variants 0 j hj vid (by simpa using hm)
      ha hr')
  · intro rows hmem
    simp only [r, CreateRoute.POST, hv, hc] at hmem
    simp [imagesStep, featuresStep, tagsStep, faqsStep, videosStep,
      testimonialsStep, childStep_snd, mem_ite_nil_iff, List.mem_cons,
      List.mem_append] at hmem
    obtain ⟨j, hj, vid, hjv, hr'⟩ := variantsLoop_attrs_complete
      o.variantInsert o.attributesInsert o.variantFeaturesInsert pid
      p.variants 0 rows hmem
    exact ⟨j, hj, vid, by simpa using hjv, hr'⟩
  · intro rows hmem
    simp only [r, CreateRoute.POST, hv, hc] at hmem
    simp [imagesStep, featuresStep, tagsStep, faqsStep, videosStep,
      testimonialsStep, childStep_snd, mem_ite_nil_iff, List.mem_cons,
      List.mem_append] at hmem
    obtain ⟨j, hj, vid, hjv, hr'⟩ := variantsLoop_feats_complete
      o.variantInsert o.attributesInsert o.variantFeaturesInsert pid
      p.variants 0 rows hmem
    exact ⟨j, hj, vid, by simpa using hjv, hr'⟩

/-- Witness for Claim C1: with the image insert and the first variant
insert failing, the route still answers 201, records both errors, inserts
the tags, and attempts the second variant. -/
theorem C1_witness :
    (CreateRoute.POST fullCreatePayload [] mixedCreateOutcomes).resp.status = 201 ∧
    "Images: images boom" ∈
      (CreateRoute.POST fullCreatePayload [] mixedCreateOutcomes).resp.errors ∧
    Op.insertTags ((fullCreatePayload.tags.map jsTrim).map (fun t => ⟨42, t⟩)) ∈
      (CreateRoute.POST fullCreatePayload [] mixedCreateOutcomes).ops ∧
    "Variant (Large): variant boom" ∈
      (CreateRoute.POST fullCreatePayload [] mixedCreateOutcomes).resp.errors ∧
    Op.insertVariant (variantRow 42 (fullCreatePayload.variants.get ⟨1, by decide⟩)) ∈
      (CreateRoute.POST fullCreatePayload [] mixedCreateOutcomes).ops :=
  have h := C1_create_best_effort fullCreatePayload [] mixedCreateOutcomes 42
    (by decide) rfl
  ⟨h.1,
   h.2.2.2.2.2.2.2.1 "images boom" rfl (by decide),
   h.2.2.2.1 (by decide),
   h.2.2.2.2.2.2.2.2.2.2.2.2.2.2.1 0 (by decide) "variant boom" rfl,
   h.2.2.2.2.2.2.2.2.2.2.2.2.2.1 1 (by decide)⟩

theorem imageRows_pid (pid : Nat) (urls : List String) :
    ∀ row ∈ imageRows pid urls, row.product_id = pid := by
  intro row hrow
  simp only [imageRows, List.mem_map] at hrow
  obtain ⟨q, _, rfl⟩ := hrow
  rfl

/-- Claim C5: the image rows built from a submitted ordered URL list are
exactly one per URL with `sort_order` the index and `is_primary` true
exactly at index 0; the create route inserts exactly those rows; and after
a successful update run whose image delete and insert succeed, the stored
`product_images` rows of the product are exactly those rows — nothing of
the previously stored set remains. -/
theorem C5_images_replacement :
    (∀ (pid : Nat) (urls : List String),
      (imageRows pid urls).length = urls.length ∧
      ∀ i (hi : i < urls.length),
        (imageRows pid urls).get? i =
          some ⟨pid, urls.get ⟨i, hi⟩, i == 0, i⟩) ∧
    (∀ (p : CreateRoute.CreatePayload) (db : List String)
      (o : CreateRoute.CreateOutcomes) (pid : Nat),
      CreateRoute.violations p = [] →
      CreateRoute.coreInsertResult db (slugifyStrictLower p.name) o = .ok pid →
      p.images ≠ [] →
      Op.insertImages (imageRows pid p.images) ∈ (CreateRoute.POST p db o).ops) ∧
    (∀ (p : UpdateRoute.UpdatePayload) (db : UpdateRoute.DbState)
      (o : UpdateRoute.UpdateOutcomes) (cur : UpdateRoute.CurrentRow),
      UpdateRoute.violations p = [] →
      o.fetchCurrent = some cur → o.delImages = .fulfilled none →
      o.imagesInsert = none →
      UpdateRoute.coreUpdateResult db (UpdateRoute.slugSentOf p) o = none →
      ((UpdateRoute.POST p db o).db.images.filter
          (fun row => row.product_id == p.products_id)) =
        imageRows p.products_id p.images) := by
  refine ⟨?_, ?_, ?_⟩
  · intro pid urls
    refine ⟨by simp [imageRows], ?_⟩
    intro i hi
    simp [imageRows, List.getElem?_map, List.getElem?_enum, List.get?_eq_get hi]
  · intro p db o pid hv hc h
    simp [CreateRoute.POST, hv, hc, imagesStep, childStep,
      List.length_pos.mpr h, List.mem_cons, List.mem_append]
  · intro p db o cur hv hf hdel hins hcu
    have hfil : ∀ l : List ImageRow,
        ((l.filter (fun r => !decide (r.product_id = p.products_id))).filter
          (fun row => row.product_id == p.products_id)) = [] := by
      intro l
      rw [List.filter_filter]
      apply List.filter_eq_nil_iff.mpr
      intro a _
      by_cases hpa : a.product_id = p.products_id <;> simp [hpa]
    have hrows : (imageRows p.products_id p.images).filter
        (fun row => row.product_id == p.products_id) =
          imageRows p.products_id p.images := by
      apply List.filter_eq_self.mpr
      intro a ha
      simp [imageRows_pid p.products_id p.images a ha]
    by_cases himg : p.images = []
    · simp [UpdateRoute.POST, hv, hf, hcu, hdel, hins, himg, hfil, imageRows]
    · have hlen : 0 < p.images.length := List.length_pos.mpr himg
      simp [UpdateRoute.POST, hv, hf, hcu, hdel, hins, hlen,
        List.filter_append, hfil, hrows]

/-- Witness for Claim C5: updating product 7's images from `[a, b, c]`
to `[x, y]` leaves exactly the two new rows (`x` primary at sort 0, `y`
at sort 1) for that product. -/
theorem C5_witness :
    ((UpdateRoute.POST imagesUpdatePayload imagesDbBefore
        imagesUpdateOutcomes).db.images.filter
      (fun row => row.product_id == 7)) =
        imageRows 7 imagesUpdatePayload.images ∧
    imageRows 7 imagesUpdatePayload.images =
      [⟨7, "https://img.example/x.png", true, 0⟩,
       ⟨7, "https://img.example/y.png", false, 1⟩] :=
  ⟨(C5_images_replacement).2.2 imagesUpdatePayload imagesDbBefore
    imagesUpdateOutcomes ⟨"winter-coat", none, none⟩ (by decide) rfl rfl rfl
    (by decide), by decide⟩

theorem isCanonChar_cases {c : Char} (h : isCanonChar c = true) :
    (97 ≤ c.toNat ∧ c.toNat ≤ 122) ∨ (48 ≤ c.toNat ∧ c.toNat ≤ 57) ∨
      c = '-' := by
  simp only [isCanonChar, isLowerAlnum, Bool.or_eq_true, Bool.and_eq_true,
    decide_eq_true_eq] at h
  tauto

theorem canonChar_ne_hyphen {c : Char}
    (h : (97 ≤ c.toNat ∧ c.toNat ≤ 122) ∨ (48 ≤ c.toNat ∧ c.toNat ≤ 57)) :
    c ≠ '-' := by
  intro hh
  rw [hh] at h
  revert h
  decide

theorem canonChar_toLower {c : Char} (h : isCanonChar c = true) :
    jsToLower c = c := by
  rcases isCanonChar_cases h with h1 | h1 | rfl
  · unfold jsToLower
    rw [if_neg]
    simp only [Bool.and_eq_true, decide_eq_true_eq]
    omega
  · unfold jsToLower
    rw [if_neg]
    simp only [Bool.and_eq_true, decide_eq_true_eq]
    omega
  · decide

theorem canonChar_not_space {c : Char} (h : isCanonChar c = true) :
    isJsSpace c = false := by
  rcases isCanonChar_cases h with h1 | h1 | rfl
  · simp only [isJsSpace, Bool.or_eq_false_iff, decide_eq_false_iff_not]
    omega
  · simp only [isJsSpace, Bool.or_eq_false_iff, decide_eq_false_iff_not]
    omega
  · decide

theorem canonChar_pA {c : Char} (h : isCanonChar c = true) :
    ((!isLowerAlnum c) = true ↔ c = '-') := by
  rcases isCanonChar_cases h with h1 | h1 | rfl
  · have hl : isLowerAlnum c = true := by
      simp only [isLowerAlnum, Bool.or_eq_true, Bool.and_eq_true,
        decide_eq_true_eq]
      omega
    simp [hl, canonChar_ne_hyphen (Or.inl h1)]
  · have hl : isLowerAlnum c = true := by
      simp only [isLowerAlnum, Bool.or_eq_true, Bool.and_eq_true,
        decide_eq_true_eq]
      omega
    simp [hl, canonChar_ne_hyphen (Or.inr h1)]
  · decide

theorem canonChar_pB {c : Char} (h : isCanonChar c = true) :
    ((isJsSpace c || decide (c.toNat = 95) || decide (c = '-')) = true ↔
      c = '-') := by
  rcases isCanonChar_cases h with h1 | h1 | rfl
  · have hs : isJsSpace c = false := by
      simp only [isJsSpace, Bool.or_eq_false_iff, decide_eq_false_iff_not]
      omega
    simp [hs, canonChar_ne_hyphen (Or.inl h1)]
    omega
  · have hs : isJsSpace c = false := by
      simp only [isJsSpace, Bool.or_eq_false_iff, decide_eq_false_iff_not]
      omega
    simp [hs, canonChar_ne_hyphen (Or.inr h1)]
    omega
  · decide

theorem canonChar_filterB {c : Char} (h : isCanonChar c = true) :
    (isWordChar c || isJsSpace c || decide (c = '-')) = true := by
  rcases isCanonChar_cases h with h1 | h1 | rfl
  · simp only [isWordChar, isAsciiAlnum, Bool.or_eq_true, Bool.and_eq_true,
      decide_eq_true_eq]
    omega
  · simp only [isWordChar, isAsciiAlnum, Bool.or_eq_true, Bool.and_eq_true,
      decide_eq_true_eq]
    omega
  · decide

theorem char_toNat_ofNat {n : Nat} (h : n.isValidChar) :
    (Char.ofNat n).toNat = n := by
  unfold Char.ofNat
  rw [dif_pos h]
  rfl

theorem jsToLower_not_upper (c : Char) :
    ¬(65 ≤ (jsToLower c).toNat ∧ (jsToLower c).toNat ≤ 90) := by
  unfold jsToLower
  split
  · rename_i hcond
    simp only [Bool.and_eq_true, decide_eq_true_eq] at hcond
    have hval : (c.toNat + 32).isValidChar := Or.inl (by omega)
    rw [char_toNat_ofNat hval]
    omega
  · rename_i hcond
    simp only [Bool.and_eq_true, decide_eq_true_eq, not_and, not_le] at hcond
    omega

theorem map_fix {α : Type} (f : α → α) :
    ∀ l : List α, (∀ c ∈ l, f c = c) → l.map f = l := by
  intro l
  induction l with
  | nil => intro _; rfl
  | cons c cs ih =>
    intro h
    rw [List.map_cons, h c (by simp), ih (fun d hd => h d (by simp [hd]))]

theorem collapseGo_mem (p : Char → Bool) (r : Char) :
    ∀ (l : List Char) (b : Bool) (c : Char), c ∈ collapseGo p r b l →
      c = r ∨ (c ∈ l ∧ p c = false) := by
  intro l
  induction l with
  | nil => intro b c hc; cases b <;> simp [collapseGo] at hc
  | cons d ds ih =>
    intro b c hc
    by_cases hd : p d = true
    · cases b with
      | true =>
        simp only [collapseGo, hd, if_true] at hc
        rcases ih true c hc with h | ⟨h1, h2⟩
        · exact Or.inl h
        · exact Or.inr ⟨by simp [h1], h2⟩
      | false =>
        simp only [collapseGo, hd, if_true, List.mem_cons] at hc
        rcases hc with rfl | hc
        · exact Or.inl rfl
        · rcases ih true c hc with h | ⟨h1, h2⟩
          · exact Or.inl h
          · exact Or.inr ⟨by simp [h1], h2⟩
    · have hout : collapseGo p r b (d :: ds) = d :: collapseGo p r false ds := by
        cases b <;> simp [collapseGo, hd]
      rw [hout, List.mem_cons] at hc
      rcases hc with rfl | hc
      · exact Or.inr ⟨by simp, by simpa using hd⟩
      · rcases ih false c hc with h | ⟨h1, h2⟩
        · exact Or.inl h
        · exact Or.inr ⟨by simp [h1], h2⟩

theorem collapseGo_head_true (p : Char → Bool) (r : Char) :
    ∀ (l : List Char) (c : Char),
      (collapseGo p r true l).head? = some c → p c = false := by
  intro l
  induction l with
  | nil => intro c hc; simp [collapseGo] at hc
  | cons d ds ih =>
    intro c hc
    by_cases hd : p d = true
    · simp only [collapseGo, hd, if_true] at hc
      exact ih c hc
    · simp [collapseGo, hd] at hc
      subst hc
      simpa using hd

theorem collapseGo_chain (p : Char → Bool) (r : Char) (hpr : p r = true) :
    ∀ (l : List Char) (b : Bool),
      List.Chain' (fun a b => ¬(a = r ∧ b = r)) (collapseGo p r b l) := by
  intro l
  induction l with
  | nil => intro b; cases b <;> simp [collapseGo]
  | cons d ds ih =>
    intro b
    by_cases hd : p d = true
    · cases b with
      | true =>
        simp only [collapseGo, hd, if_true]
        exact ih true
      | false =>
        simp only [collapseGo, hd, if_true]
        rw [List.chain'_cons']
        refine ⟨?_, ih true⟩
        intro e he
        rintro ⟨-, her⟩
        have hpe := collapseGo_head_true p r ds e (Option.mem_def.mp he)
        rw [her, hpr] at hpe
        exact absurd hpe (by decide)
    · have hout : collapseGo p r b (d :: ds) = d :: collapseGo p r false ds := by
        cases b <;> simp [collapseGo, hd]
      rw [hout, List.chain'_cons']
      refine ⟨?_, ih false⟩
      intro e _
      rintro ⟨hdr, -⟩
      rw [hdr] at hd
      exact hd hpr

theorem collapseGo_fix (p : Char → Bool) (r : Char) :
    ∀ (l : List Char) (b : Bool),
      (∀ c ∈ l, (p c = true ↔ c = r)) →
      List.Chain' (fun a b => ¬(a = r ∧ b = r)) l →
      (b = true → ∀ c, l.head? = some c → c ≠ r) →
      collapseGo p r b l = l := by
  intro l
  induction l with
  | nil => intro b _ _ _; cases b <;> rfl
  | cons d ds ih =>
    intro b hall hchain hb
    rcases List.chain'_cons'.mp hchain with ⟨hhead, htail⟩
    by_cases hd : p d = true
    · have hdr : d = r := (hall d (by simp)).mp hd
      cases b with
      | true => exact absurd hdr (hb rfl d rfl)
      | false =>
        simp only [collapseGo, hd, if_true]
        rw [hdr]
        congr 1
        refine ih true (fun c hc => hall c (by simp [hc])) htail ?_
        intro _ c hc
        intro hcr
        exact hhead c (Option.mem_def.mpr hc) ⟨hdr, hcr⟩
    · have hout : collapseGo p r b (d :: ds) = d :: collapseGo p r false ds := by
        cases b <;> simp [collapseGo, hd]
      rw [hout]
      congr 1
      exact ih false (fun c hc => hall c (by simp [hc])) htail (by simp)

theorem chain_reverse_of_symm (R : Char → Char → Prop)
    (hsymm : ∀ a b, R a b → R b a) (l : List Char)
    (h : List.Chain' R l) : List.Chain' R l.reverse := by
  rw [List.chain'_reverse]
  exact h.imp (fun a b hab => hsymm a b hab)

theorem dropOne_sub (r : Char) (l : List Char) (c : Char)
    (hc : c ∈ dropOne r l) : c ∈ l := by
  cases l with
  | nil => simp [dropOne] at hc
  | cons d ds =>
    simp only [dropOne] at hc
    split at hc
    · exact List.mem_cons_of_mem _ hc
    · exact hc

theorem dropOne_chain (R : Char → Char → Prop) (r : Char) (l : List Char)
    (h : List.Chain' R l) : List.Chain' R (dropOne r l) := by
  cases l with
  | nil => simp [dropOne]
  | cons d ds =>
    simp only [dropOne]
    split
    · exact (List.chain'_cons'.mp h).2
    · exact h

theorem dropOne_head_ne (r : Char) (l : List Char)
    (h : List.Chain' (fun a b => ¬(a = r ∧ b = r)) l) :
    (dropOne r l).head? ≠ some r := by
  cases l with
  | nil => simp [dropOne]
  | cons d ds =>
    simp only [dropOne]
    split
    · rename_i hdr
      cases ds with
      | nil => simp
      | cons e es =>
        simp only [List.head?_cons, ne_eq, Option.some.injEq]
        intro her
        exact (List.chain'_cons'.mp h).1 e (by simp) ⟨hdr, her⟩
    · rename_i hdr
      simp only [List.head?_cons, ne_eq, Option.some.injEq]
      exact hdr

theorem dropOne_getLast_ne (r y : Char) (l : List Char)
    (h : l.getLast? ≠ some y) : (dropOne r l).getLast? ≠ some y := by
  cases l with
  | nil => simp [dropOne]
  | cons d ds =>
    simp only [dropOne]
    split
    · cases ds with
      | nil => simp
      | cons e es =>
        rw [List.getLast?_cons_cons] at h
        exact h
    · exact h

theorem dropOne_of_head_ne (r : Char) (l : List Char)
    (h : l.head? ≠ some r) : dropOne r l = l := by
  cases l with
  | nil => rfl
  | cons d ds =>
    simp only [dropOne]
    rw [if_neg]
    intro hdr
    exact h (by simp [hdr])

theorem stripOneEnds_mem (r : Char) (l : List Char) (c : Char)
    (hc : c ∈ stripOneEnds r l) : c ∈ l := by
  unfold stripOneEnds at hc
  rw [List.mem_reverse] at hc
  have h2 := dropOne_sub r _ c hc
  rw [List.mem_reverse] at h2
  exact dropOne_sub r l c h2

theorem stripOneEnds_chain (R : Char → Char → Prop)
    (hsymm : ∀ a b, R a b → R b a) (r : Char) (l : List Char)
    (h : List.Chain' R l) : List.Chain' R (stripOneEnds r l) := by
  unfold stripOneEnds
  exact chain_reverse_of_symm R hsymm _
    (dropOne_chain R r _ (chain_reverse_of_symm R hsymm _
      (dropOne_chain R r l h)))

theorem stripOneEnds_head_ne (r : Char) (l : List Char)
    (h : List.Chain' (fun a b => ¬(a = r ∧ b = r)) l) :
    (stripOneEnds r l).head? ≠ some r := by
  unfold stripOneEnds
  rw [List.head?_reverse]
  apply dropOne_getLast_ne
  rw [List.getLast?_reverse]
  exact dropOne_head_ne r l h

theorem stripOneEnds_getLast_ne (r : Char) (l : List Char)
    (h : List.Chain' (fun a b => ¬(a = r ∧ b = r)) l) :
    (stripOneEnds r l).getLast? ≠ some r := by
  unfold stripOneEnds
  rw [List.getLast?_reverse]
  apply dropOne_head_ne
  exact chain_reverse_of_symm _ (by tauto) _ (dropOne_chain _ r l h)

theorem stripOneEnds_fix (r : Char) (l : List Char)
    (hh : l.head? ≠ some r) (hl : l.getLast? ≠ some r) :
    stripOneEnds r l = l := by
  unfold stripOneEnds
  rw [dropOne_of_head_ne r l hh,
    dropOne_of_head_ne r l.reverse (by rw [List.head?_reverse]; exact hl),
    List.reverse_reverse]

theorem dropWhile_head_not (q : Char → Bool) :
    ∀ (l : List Char) (c : Char), (l.dropWhile q).head? = some c →
      q c = false := by
  intro l
  induction l with
  | nil => intro c hc; simp at hc
  | cons d ds ih =>
    intro c hc
    rw [List.dropWhile_cons] at hc
    split at hc
    · exact ih c hc
    · rename_i hd
      simp only [List.head?_cons, Option.some.injEq] at hc
      subst hc
      simpa using hd

theorem dropWhile_chain (R : Char → Char → Prop) (q : Char → Bool) :
    ∀ l : List Char, List.Chain' R l → List.Chain' R (l.dropWhile q) := by
  intro l
  induction l with
  | nil => intro h; simp
  | cons d ds ih =>
    intro h
    rw [List.dropWhile_cons]
    split
    · exact ih (List.chain'_cons'.mp h).2
    · exact h

theorem dropWhile_of_head (q : Char → Bool) (l : List Char)
    (h : ∀ c, l.head? = some c → q c = false) : l.dropWhile q = l := by
  cases l with
  | nil => rfl
  | cons d ds =>
    rw [List.dropWhile_cons, if_neg]
    simp [h d rfl]

theorem suffix_getLast_eq {α : Type} {s t : List α} (h : s <:+ t)
    (hs : s ≠ []) : s.getLast? = t.getLast? := by
  obtain ⟨u, rfl⟩ := h
  exact (List.getLast?_append_of_ne_nil u hs).symm

theorem stripAllEnds_mem (r : Char) (l : List Char) (c : Char)
    (hc : c ∈ stripAllEnds r l) : c ∈ l := by
  unfold stripAllEnds at hc
  rw [List.mem_reverse] at hc
  have h2 := (List.dropWhile_suffix _).subset hc
  rw [List.mem_reverse] at h2
  exact (List.dropWhile_suffix _).subset h2

theorem stripAllEnds_chain (R : Char → Char → Prop)
    (hsymm : ∀ a b, R a b → R b a) (r : Char) (l : List Char)
    (h : List.Chain' R l) : List.Chain' R (stripAllEnds r l) := by
  unfold stripAllEnds
  exact chain_reverse_of_symm R hsymm _
    (dropWhile_chain R _ _ (chain_reverse_of_symm R hsymm _
      (dropWhile_chain R _ l h)))

theorem stripAllEnds_head_ne (r : Char) (l : List Char) :
    (stripAllEnds r l).head? ≠ some r := by
  unfold stripAllEnds
  rw [List.head?_reverse]
  by_cases hz : (l.dropWhile (· = r)).reverse.dropWhile (· = r) = []
  · simp [hz]
  · rw [suffix_getLast_eq (List.dropWhile_suffix _) hz,
      List.getLast?_reverse]
    intro hy
    have := dropWhile_head_not _ l r hy
    simp at this

theorem stripAllEnds_getLast_ne (r : Char) (l : List Char) :
    (stripAllEnds r l).getLast? ≠ some r := by
  unfold stripAllEnds
  rw [List.getLast?_reverse]
  intro hz
  have := dropWhile_head_not _ _ r hz
  simp at this

theorem stripAllEnds_fix (r : Char) (l : List Char)
    (hh : l.head? ≠ some r) (hl : l.getLast? ≠ some r) :
    stripAllEnds r l = l := by
  unfold stripAllEnds
  rw [dropWhile_of_head _ l (fun c hc => by
      simp only [decide_eq_false_iff_not]
      intro hcr
      exact hh (hcr ▸ hc)),
    dropWhile_of_head _ l.reverse (fun c hc => by
      rw [List.head?_reverse] at hc
      simp only [decide_eq_false_iff_not]
      intro hcr
      exact hl (hcr ▸ hc)),
    List.reverse_reverse]

theorem trimChars_sub (l : List Char) (c : Char) (hc : c ∈ trimChars l) :
    c ∈ l := by
  unfold trimChars at hc
  rw [List.mem_reverse] at hc
  have h2 := (List.dropWhile_suffix _).subset hc
  rw [List.mem_reverse] at h2
  exact (List.dropWhile_suffix _).subset h2

theorem trimChars_fix (l : List Char)
    (h : ∀ c ∈ l, isJsSpace c = false) : trimChars l = l := by
  unfold trimChars
  rw [dropWhile_of_head _ l (fun c hc => h c (List.mem_of_mem_head? (by simp [hc]))),
    dropWhile_of_head _ l.reverse (fun c hc => by
      have := List.mem_of_mem_head? (a := c) (l := l.reverse) (by simp [hc])
      exact h c (List.mem_reverse.mp this)),
    List.reverse_reverse]

theorem toList_mk (l : List Char) : (String.mk l).toList = l := rfl

theorem mk_toList (t : String) : String.mk t.toList = t := rfl

theorem hyphenRel_symm : ∀ a b : Char,
    (fun a b => ¬(a = '-' ∧ b = '-')) a b →
    (fun a b => ¬(a = '-' ∧ b = '-')) b a := by
  intro a b h
  tauto

theorem part001_canonical (s : String) :
    Canonical (Part001.generateSlug s).toList := by
  unfold Part001.generateSlug
  rw [toList_mk]
  have hpr : (fun c => !isLowerAlnum c) '-' = true := by decide
  have hchain := collapseGo_chain (fun c => !isLowerAlnum c) '-' hpr
    (s.toList.map jsToLower) false
  refine ⟨?_, ?_, ?_, ?_⟩
  · intro c hc
    have h2 := collapseGo_mem (fun c => !isLowerAlnum c) '-'
      (s.toList.map jsToLower) false c (stripOneEnds_mem '-' _ c hc)
    rcases h2 with rfl | ⟨-, h3⟩
    · decide
    · have h3x : (!isLowerAlnum c) = false := h3
      cases hb : isLowerAlnum c
      · rw [hb] at h3x
        simp at h3x
      · simp [isCanonChar, hb]
  · exact stripOneEnds_chain _ hyphenRel_symm '-' _ hchain
  · exact stripOneEnds_head_ne '-' _ hchain
  · exact stripOneEnds_getLast_ne '-' _ hchain

theorem part001_fix (l : List Char) (h : Canonical l) :
    Part001.generateSlug (String.mk l) = String.mk l := by
  obtain ⟨hchars, hiso, hhead, hlast⟩ := h
  unfold Part001.generateSlug
  rw [toList_mk,
    map_fix _ _ (fun c hc => canonChar_toLower (hchars c hc))]
  unfold collapseRuns
  rw [collapseGo_fix _ '-' l false
      (fun c hc => canonChar_pA (hchars c hc)) hiso (by simp),
    stripOneEnds_fix '-' l hhead hlast]

theorem charB_canon {c : Char} (himg : ¬(65 ≤ c.toNat ∧ c.toNat ≤ 90))
    (hq : (isWordChar c || isJsSpace c || decide (c = '-')) = true)
    (hp : (isJsSpace c || decide (c.toNat = 95) || decide (c = '-')) = false) :
    isCanonChar c = true := by
  simp only [Bool.or_eq_true, decide_eq_true_eq, Bool.or_eq_false_iff,
    decide_eq_false_iff_not] at hq hp
  obtain ⟨⟨hsp, h95⟩, hhy⟩ := hp
  rcases hq with (hw | hs) | hh
  · simp only [isWordChar, isAsciiAlnum, Bool.or_eq_true, Bool.and_eq_true,
      decide_eq_true_eq] at hw
    simp only [isCanonChar, isLowerAlnum, Bool.or_eq_true, Bool.and_eq_true,
      decide_eq_true_eq]
    left
    omega
  · rw [hs] at hsp
    simp at hsp
  · exact absurd hh hhy

theorem productsSchema_canonical (s : String) :
    Canonical (ProductsSchema.generateSlug s).toList := by
  unfold ProductsSchema.generateSlug
  rw [toList_mk]
  have hpr : (fun c => isJsSpace c || decide (c.toNat = 95) ||
      decide (c = '-')) '-' = true := by decide
  have hchain := collapseGo_chain (fun c => isJsSpace c ||
      decide (c.toNat = 95) || decide (c = '-')) '-' hpr
    ((trimChars (s.toList.map jsToLower)).filter
      (fun c => isWordChar c || isJsSpace c || decide (c = '-'))) false
  refine ⟨?_, ?_, ?_, ?_⟩
  · intro c hc
    have h2 := collapseGo_mem _ '-' _ false c (stripAllEnds_mem '-' _ c hc)
    rcases h2 with rfl | ⟨hmem, h3⟩
    · decide
    · rw [List.mem_filter] at hmem
      obtain ⟨hmem2, hq⟩ := hmem
      have hmem3 := trimChars_sub _ c hmem2
      rw [List.mem_map] at hmem3
      obtain ⟨d, -, rfl⟩ := hmem3
      exact charB_canon (jsToLower_not_upper d) hq h3
  · exact stripAllEnds_chain _ hyphenRel_symm '-' _ hchain
  · exact stripAllEnds_head_ne '-' _
  · exact stripAllEnds_getLast_ne '-' _

theorem productsSchema_fix (l : List Char) (h : Canonical l) :
    ProductsSchema.generateSlug (String.mk l) = String.mk l := by
  obtain ⟨hchars, hiso, hhead, hlast⟩ := h
  unfold ProductsSchema.generateSlug
  rw [toList_mk,
    map_fix _ _ (fun c hc => canonChar_toLower (hchars c hc)),
    trimChars_fix l (fun c hc => canonChar_not_space (hchars c hc)),
    List.filter_eq_self.mpr (fun c hc => canonChar_filterB (hchars c hc))]
  unfold collapseRuns
  rw [collapseGo_fix _ '-' l false
      (fun c hc => canonChar_pB (hchars c hc)) hiso (by simp),
    stripAllEnds_fix '-' l hhead hlast]

/-- Counterexample for Claim C9: the category-form `generateSlug` of
`part_001` maps the apostrophe to a hyphen instead of stripping it, so on
the claim's own sample input it returns `men-s-t-shirt`, not
`mens-t-shirt`. -/
theorem C9_counterexample :
    Part001.generateSlug menSTShirt = "men-s-t-shirt" ∧
    Part001.generateSlug menSTShirt ≠ "mens-t-shirt" := by decide

/-- Claim C9 (amended): both slug helpers are pure deterministic
functions and idempotent; the product-schema version strips the
apostrophe, returning `mens-t-shirt` on the sample input, while the
`part_001` category-form version collapses it to a hyphen, returning
`men-s-t-shirt`. -/
theorem C9_slug_idempotent :
    (∀ s : String, Part001.generateSlug (Part001.generateSlug s) =
      Part001.generateSlug s) ∧
    (∀ s : String, ProductsSchema.generateSlug (ProductsSchema.generateSlug s) =
      ProductsSchema.generateSlug s) ∧
    ProductsSchema.generateSlug menSTShirt = "mens-t-shirt" ∧
    Part001.generateSlug menSTShirt = "men-s-t-shirt" := by
  refine ⟨?_, ?_, by decide, by decide⟩
  · intro s
    have h := part001_fix (Part001.generateSlug s).toList (part001_canonical s)
    rwa [mk_toList] at h
  · intro s
    have h := productsSchema_fix (ProductsSchema.generateSlug s).toList
      (productsSchema_canonical s)
    rwa [mk_toList] at h

end Haev
